import Mathlib

/-!
Verification development for the `pokertable` table engine.

The Go sources are embedded shallowly: structs become Lean structures,
methods become pure functions from the input state to the output state,
`int`/`int64` become `Int`, Go maps become association lists, and fallible
calls return `Option`/an error component.  A `none` result of an operation
models a Go panic (out-of-range index or nil dereference).  Collaborator
packages that are not part of the sources (seat manager, ready group,
open-game manager, time bank, the pokerlib hand engine) are represented by
oracle parameters or by definitions modelled from the specification, each
marked as such in its doc comment.
-/

namespace Pokertable

/-- Sentinel for unset indexes and seats; the spec uses -1 throughout
(seat map entries, blind break level, unset seats). -/
def UnsetValue : Int := -1

/-- Table status strings, bit-exact from the sources. -/
def TableStateStatus_TableGameStandby : String := "standby"

def TableStateStatus_TableGamePlaying : String := "playing"

def TableStateStatus_TableClosed : String := "closed"

def TableStateStatus_TableCreated : String := "created"

def TableStateStatus_TablePausing : String := "pausing"

def TableStateStatus_TableBalancing : String := "balancing"

def TableStateStatus_TableGameOpened : String := "game_opened"

def TableStateStatus_TableGameSettled : String := "game_settled"

/-- Modelled from the spec: wager action strings (section 6 of the spec gives
the exact strings; the Go constants live outside the provided sources). -/
def WagerAction_Bet : String := "bet"

def WagerAction_Raise : String := "raise"

def WagerAction_Call : String := "call"

def WagerAction_Check : String := "check"

def WagerAction_Fold : String := "fold"

def WagerAction_AllIn : String := "allin"

/-- Modelled from the spec: game round strings used by the statistics code. -/
def GameRound_Preflop : String := "preflop"

def GameRound_Flop : String := "flop"

def GameRound_Turn : String := "turn"

def GameRound_River : String := "river"

/-- Modelled from the spec: position strings. -/
def Position_Dealer : String := "dealer"

def Position_SB : String := "sb"

def Position_BB : String := "bb"

def Position_CO : String := "co"

/-- Modelled from the spec: competition rule strings (only distinctness
matters to the engine logic). -/
def CompetitionRule_Default : String := "default"

def CompetitionRule_ShortDeck : String := "short_deck"

def CompetitionRule_Omaha : String := "omaha"

/-- Modelled from the spec: competition mode strings. -/
def CompetitionMode_CT : String := "ct"

def CompetitionMode_MTT : String := "mtt"

def CompetitionMode_Cash : String := "cash"

/-- Typed errors of the engine and of the game driver, one constructor per Go
error value; `other` stands for opaque collaborator errors. -/
inductive Err where
  | tableNoEmptySeats
  | tableInvalidCreateSetting
  | tablePlayerNotFound
  | tablePlayerInvalidGameAction
  | tablePlayerInvalidAction
  | tablePlayerSeatUnavailable
  | tableOpenGameFailed
  | tableOpenGameFailedInBlindBreakingLevel
  | gamePlayerNotFound
  | gameInvalidAction
  | gameUnknownEvent
  | other (msg : String)
deriving Repr, DecidableEq

/-- TableBlindState from table_settings.go. -/
structure TableBlindState where
  level : Int
  ante : Int
  dealer : Int
  sb : Int
  bb : Int
  endTime : Int
deriving Repr, DecidableEq

/-- IsSet from table_settings.go.  The Go nil-receiver guard is dropped: the
engine always initialises the blind-state pointer at table creation. -/
def TableBlindState.IsSet (bs : TableBlindState) : Bool :=
  bs.level != 0 && bs.sb > 0 && bs.bb > 0

/-- IsBreaking from table_settings.go. -/
def TableBlindState.IsBreaking (bs : TableBlindState) : Bool :=
  bs.level == -1

/-- TablePlayerGameStatistics from table_engine_internal.go (the game
statistics block of part_002 in the sources). -/
structure TablePlayerGameStatistics where
  actionTimes : Int
  raiseTimes : Int
  callTimes : Int
  checkTimes : Int
  isFold : Bool
  foldRound : String
  isVPIPChance : Bool
  isVPIP : Bool
  isPFRChance : Bool
  isPFR : Bool
  isATSChance : Bool
  isATS : Bool
  is3BChance : Bool
  is3B : Bool
  isFt3BChance : Bool
  isFt3B : Bool
  isCheckRaiseChance : Bool
  isCheckRaise : Bool
  isCBetChance : Bool
  isCBet : Bool
  isFtCBChance : Bool
  isFtCB : Bool
  showdownWinningChance : Bool
  isShowdownWinning : Bool
deriving Repr, DecidableEq

/-- NewPlayerGameStatistics from the sources: every counter zero and every
flag false. -/
def NewPlayerGameStatistics : TablePlayerGameStatistics :=
  { actionTimes := 0, raiseTimes := 0, callTimes := 0, checkTimes := 0
    isFold := false, foldRound := ""
    isVPIPChance := false, isVPIP := false
    isPFRChance := false, isPFR := false
    isATSChance := false, isATS := false
    is3BChance := false, is3B := false
    isFt3BChance := false, isFt3B := false
    isCheckRaiseChance := false, isCheckRaise := false
    isCBetChance := false, isCBet := false
    isFtCBChance := false, isFtCB := false
    showdownWinningChance := false, isShowdownWinning := false }

/-- TablePlayerState from part_002. -/
structure TablePlayerState where
  playerID : String
  seat : Int
  positions : List String
  bankroll : Int
  isIn : Bool
  isParticipated : Bool
  gameStatistics : TablePlayerGameStatistics
deriving Repr, DecidableEq

/-- TablePlayerGameAction from table_settings.go. -/
structure TablePlayerGameAction where
  competitionID : String
  tableID : String
  gameID : String
  gameCount : Int
  updateAt : Int
  playerID : String
  action : String
  round : String
  chips : Int
  seat : Int
  positions : List String
  bankroll : Int
  initialStackSize : Int
  stackSize : Int
  pot : Int
  wager : Int
deriving Repr, DecidableEq

/-- Per-player hand state of the external pokerlib engine; only the fields
the table engine reads are embedded. -/
structure GamePlayerState where
  idx : Int
  fold : Bool
  combinationPower : Int
  bankroll : Int
  initialStackSize : Int
  stackSize : Int
  pot : Int
  wager : Int
deriving Repr, DecidableEq

/-- One row of the hand result produced by the pokerlib engine. -/
structure GameResultPlayer where
  idx : Int
  final : Int
deriving Repr, DecidableEq

/-- Hand result of the pokerlib engine. -/
structure GameResult where
  players : List GameResultPlayer
deriving Repr, DecidableEq

/-- Status block of the pokerlib game state; only the fields the table
engine reads are embedded. -/
structure GameStateStatus where
  round : String
  currentRaiser : Int
  currentWager : Int
deriving Repr, DecidableEq

/-- Game state of the external pokerlib engine, embedded with the fields the
table engine reads. -/
structure GameState where
  gameID : String
  players : List GamePlayerState
  status : GameStateStatus
  result : GameResult
deriving Repr, DecidableEq

/-- GetPlayer of the pokerlib game state (modelled from the spec: returns
the player whose game index matches, nil when absent). -/
def GameState.getPlayer (gs : GameState) (i : Int) : Option GamePlayerState :=
  gs.players.find? (fun p => p.idx == i)

/-- TableMeta from part_002. -/
structure TableMeta where
  competitionID : String
  rule : String
  mode : String
  maxDuration : Int
  tableMaxSeatCount : Int
  tableMinPlayerCount : Int
  minChipUnit : Int
  actionTime : Int
deriving Repr, DecidableEq

/-- TableState from part_002.  The seat map (Go `map[int]int`) becomes an
association list from seat id to player index. -/
structure TableState where
  status : String
  gameState : Option GameState
  playerStates : List TablePlayerState
  gamePlayerIndexes : List Int
  gameCount : Int
  startAt : Int
  blindState : TableBlindState
  currentDealerSeat : Int
  currentSBSeat : Int
  currentBBSeat : Int
  seatMap : List (Int × Int)
  nextBBOrderPlayerIDs : List String
  lastPlayerGameAction : Option TablePlayerGameAction
  currentActionEndAt : Int
  gameBlindState : Option TableBlindState
deriving Repr, DecidableEq

/-- Table from part_002. -/
structure Table where
  id : String
  meta : TableMeta
  state : TableState
  updateAt : Int
  updateSerial : Int
deriving Repr, DecidableEq

/-- Go map read with the zero value as default, as `seatMap[k]` behaves when
the comma-ok form is not used. -/
def lookupD (m : List (Int × Int)) (k : Int) : Int :=
  match m.find? (fun kv => kv.fst == k) with
  | some kv => kv.snd
  | none => 0

/-- Go map read in the comma-ok form. -/
def lookupOpt (m : List (Int × Int)) (k : Int) : Option Int :=
  match m.find? (fun kv => kv.fst == k) with
  | some kv => some kv.snd
  | none => none

/-- FindPlayerIdx from part_002: first index whose playerID matches,
UnsetValue when absent. -/
def Table.FindPlayerIdx (t : Table) (playerID : String) : Int :=
  match t.state.playerStates.findIdx? (fun p => p.playerID == playerID) with
  | some i => (i : Int)
  | none => UnsetValue

/-- FindGamePlayerIdx from part_002: position inside gamePlayerIndexes of
the entry whose player matches, UnsetValue when absent.  The Go loop indexes
playerStates with each entry; an entry outside the player list is a panic,
modelled by skipping (the engine only stores valid indexes). -/
def Table.FindGamePlayerIdx (t : Table) (playerID : String) : Int :=
  match t.state.gamePlayerIndexes.findIdx? (fun (playerIdx : Int) =>
    if playerIdx < 0 then false
    else
      match t.state.playerStates.get? playerIdx.toNat with
      | some p => p.playerID == playerID
      | none => false) with
  | some i => (i : Int)
  | none => UnsetValue

/-- FindPlayerIndexFromGamePlayerIndex from part_002. -/
def Table.FindPlayerIndexFromGamePlayerIndex (t : Table) (gamePlayerIdx : Int) : Int :=
  if gamePlayerIdx < 0 || gamePlayerIdx ≥ (t.state.gamePlayerIndexes.length : Int) then
    UnsetValue
  else
    match t.state.gamePlayerIndexes.get? gamePlayerIdx.toNat with
    | some v => v
    | none => UnsetValue

/-- AlivePlayers from part_002: players with a positive bankroll. -/
def Table.AlivePlayers (t : Table) : List TablePlayerState :=
  t.state.playerStates.filter (fun p => p.bankroll > 0)

/-- ShouldPause from part_002: blind level -1 (the nil-pointer guard is
dropped as in IsSet). -/
def Table.ShouldPause (t : Table) : Bool :=
  t.state.blindState.level == -1

/-- Modelled from the spec: the seat-manager collaborator (package
seat_manager is not among the provided sources) together with the two other
collaborator outcomes the engine consults, represented by the observable
results of its calls.  InitPositions and RotatePositions succeed or fail;
the Current*SeatID getters return the post-rotation seats; IsPlayerActive
returns isIn and hasChips and not sitting-out, or an error (`none`);
Seats()[s].Active() is `seatActive`; `updatePositions` stands for the
engine's own updatePlayerPositions routine, which is also outside the
provided sources and per the spec only rewrites each player's positions
vector. -/
structure SMView where
  isInitPositions : Bool
  initPositionsOk : Bool
  rotatePositionsOk : Bool
  isPlayerActive : String → Option Bool
  dealerSeatID : Int
  sbSeatID : Int
  bbSeatID : Int
  seatActive : Int → Bool
  updatePositions : List TablePlayerState → List TablePlayerState
  joinPlayersOk : Bool
  getSeatID : String → Option Int
  assignSeatsOk : Bool
  randomAssignSeatsOk : Bool
  removeSeatsOk : Bool
  updateHasChipsOk : String → Bool

/-- Modelled from the spec: `emitEvent` fires OnTableUpdated and bumps the
monotonic updateSerial ("bumped on every state-mutating emission"); the
wall-clock update timestamp is not modelled.  The emission itself is
recorded by each caller in its returned event list. -/
def emitEvent (t : Table) : Table :=
  { t with updateSerial := t.updateSerial + 1 }

/-- Common result of an engine operation: the table afterwards, the returned
error, and the names of the table-updated events emitted (the emitEvent
calls) during the operation. -/
structure ActOut where
  table : Table
  err : Option Err
  events : List String
deriving Repr, DecidableEq

/-- validateGameMove from table_engine_internal.go: the status test comes
first, the game-player-index test second. -/
def validateGameMove (t : Table) (gamePlayerIdx : Int) : Option Err :=
  if t.state.status != TableStateStatus_TableGamePlaying then
    some Err.tablePlayerInvalidGameAction
  else if gamePlayerIdx == UnsetValue then
    some Err.tablePlayerNotFound
  else
    none

/-- createPlayerGameAction from table_engine_internal.go.  `now` replaces
time.Now().Unix().  The Go guard `playerIdx < len(playerStates)` with a
negative index would panic; every call site has already ruled the negative
case out, and the embedding guards both bounds. -/
def createPlayerGameAction (t : Table) (playerID : String) (playerIdx : Int)
    (action : String) (chips : Int) (player : Option GamePlayerState)
    (now : Int) : TablePlayerGameAction :=
  let base : TablePlayerGameAction :=
    { competitionID := t.meta.competitionID
      tableID := t.id
      gameID := ""
      gameCount := t.state.gameCount
      updateAt := now
      playerID := playerID
      action := action
      round := ""
      chips := chips
      seat := 0
      positions := []
      bankroll := 0
      initialStackSize := 0
      stackSize := 0
      pot := 0
      wager := 0 }
  let withGame :=
    match t.state.gameState with
    | some gs => { base with gameID := gs.gameID, round := gs.status.round }
    | none => base
  let withSeat :=
    if 0 ≤ playerIdx then
      match t.state.playerStates.get? playerIdx.toNat with
      | some ps => { withGame with seat := ps.seat, positions := ps.positions }
      | none => withGame
    else withGame
  match player with
  | some p =>
      { withSeat with bankroll := p.bankroll, initialStackSize := p.initialStackSize
                      stackSize := p.stackSize, pot := p.pot, wager := p.wager }
  | none => withSeat

/-- Update of the player at a list position, leaving the list unchanged when
the position is out of range (Go writes through a pointer it already
obtained, so call sites guarantee the range). -/
def setPlayer (players : List TablePlayerState) (i : Nat)
    (f : TablePlayerState → TablePlayerState) : List TablePlayerState :=
  match players.get? i with
  | some p => players.set i (f p)
  | none => players

/-- Shared prefix of every Player* game action from part_002: resolve the
game-player index, validateGameMove, then resolve the table player index
(ErrGamePlayerNotFound when unset).  Returns the two indexes on success. -/
def resolveGameMove (t : Table) (playerID : String) : Except Err (Int × Int) :=
  let gamePlayerIdx := t.FindGamePlayerIdx playerID
  match validateGameMove t gamePlayerIdx with
  | some e => Except.error e
  | none =>
    let playerIdx := t.FindPlayerIndexFromGamePlayerIndex gamePlayerIdx
    if playerIdx == UnsetValue then Except.error Err.gamePlayerNotFound
    else Except.ok (gamePlayerIdx, playerIdx)

/-- PlayerReady from part_002.  The game driver call te.game.Ready is an
oracle parameter `g`: the game state on success, the driver's error
otherwise.  No event is emitted for Ready. -/
def PlayerReady (t : Table) (playerID : String) (g : Except Err GameState)
    (now : Int) : ActOut :=
  match resolveGameMove t playerID with
  | Except.error e => ⟨t, some e, []⟩
  | Except.ok (gamePlayerIdx, playerIdx) =>
    match g with
    | Except.error e => ⟨t, some e, []⟩
    | Except.ok gs =>
      let pga := createPlayerGameAction t playerID playerIdx "ready" 0
        (gs.getPlayer gamePlayerIdx) now
      ⟨{ t with state := { t.state with lastPlayerGameAction := some pga } }, none, []⟩

/-- PlayerPay from part_002. -/
def PlayerPay (t : Table) (playerID : String) (chips : Int)
    (g : Except Err GameState) (now : Int) : ActOut :=
  match resolveGameMove t playerID with
  | Except.error e => ⟨t, some e, []⟩
  | Except.ok (gamePlayerIdx, playerIdx) =>
    match g with
    | Except.error e => ⟨t, some e, []⟩
    | Except.ok gs =>
      let pga := createPlayerGameAction t playerID playerIdx "pay" chips
        (gs.getPlayer gamePlayerIdx) now
      ⟨{ t with state := { t.state with lastPlayerGameAction := some pga } }, none, []⟩

/-- PlayerBet from part_002.  On success: record the action, emit the
game-player-action event (not a table-updated event), bump actionTimes,
bump raiseTimes when the bettor became current raiser, and realise VPIP and
C-Bet off their chance flags. -/
def PlayerBet (t : Table) (playerID : String) (chips : Int)
    (g : Except Err GameState) (now : Int) : ActOut :=
  match resolveGameMove t playerID with
  | Except.error e => ⟨t, some e, []⟩
  | Except.ok (gamePlayerIdx, playerIdx) =>
    match g with
    | Except.error e => ⟨t, some e, []⟩
    | Except.ok gs =>
      let pga := createPlayerGameAction t playerID playerIdx WagerAction_Bet chips
        (gs.getPlayer gamePlayerIdx) now
      let upd := fun p : TablePlayerState =>
        let st := p.gameStatistics
        let st := { st with actionTimes := st.actionTimes + 1 }
        let st := if gs.status.currentRaiser == gamePlayerIdx then
            { st with raiseTimes := st.raiseTimes + 1 } else st
        let st := if st.isVPIPChance then { st with isVPIP := true } else st
        let st := if st.isCBetChance then { st with isCBet := true } else st
        { p with gameStatistics := st }
      ⟨{ t with state := { t.state with
            lastPlayerGameAction := some pga
            playerStates := setPlayer t.state.playerStates playerIdx.toNat upd } },
        none, []⟩

/-- refreshThreeBet first phase from table_engine_internal.go: when any
player carries Is3B, every Is3B flag is cleared. -/
def clearThreeBetIfAny (players : List TablePlayerState) : List TablePlayerState :=
  if players.any (fun p => p.gameStatistics.is3B) then
    players.map (fun p => { p with gameStatistics := { p.gameStatistics with is3B := false } })
  else players

/-- refreshThreeBet second phase: the loop that makes position `playerIdx`
the unique 3-Bettor, walking the list with counter `i`. -/
def setThreeBettor (playerIdx : Int) (i : Int) :
    List TablePlayerState → List TablePlayerState
  | [] => []
  | p :: rest =>
      { p with gameStatistics := { p.gameStatistics with is3B := i == playerIdx } } ::
        setThreeBettor playerIdx (i + 1) rest

/-- refreshThreeBet from table_engine_internal.go: clear all 3-Bet flags if
any are set, then, when the acting player had the 3-Bet chance, mark exactly
that player as the 3-Bettor. -/
def refreshThreeBet (players : List TablePlayerState)
    (playerState : TablePlayerState) (playerIdx : Int) : List TablePlayerState :=
  let players1 := clearThreeBetIfAny players
  if playerState.gameStatistics.is3BChance then
    setThreeBettor playerIdx 0 players1
  else players1

/-- Normalisation dropping the Is3B flag, used to state that refreshThreeBet
changes nothing else about a player. -/
def eraseIs3B (p : TablePlayerState) : TablePlayerState :=
  { p with gameStatistics := { p.gameStatistics with is3B := false } }

/-- PlayerRaise from part_002.  On success: record and emit the action, bump
actionTimes and raiseTimes, realise VPIP/PFR/ATS, run refreshThreeBet, then
realise Check-Raise and C-Bet.  The Go code reads the player state pointer
before refreshThreeBet, so the chance flags used afterwards are the same
flags as before the refresh (refreshThreeBet only rewrites Is3B). -/
def PlayerRaise (t : Table) (playerID : String) (chipLevel : Int)
    (g : Except Err GameState) (now : Int) : ActOut :=
  match resolveGameMove t playerID with
  | Except.error e => ⟨t, some e, []⟩
  | Except.ok (gamePlayerIdx, playerIdx) =>
    match g with
    | Except.error e => ⟨t, some e, []⟩
    | Except.ok gs =>
      let pga := createPlayerGameAction t playerID playerIdx WagerAction_Raise chipLevel
        (gs.getPlayer gamePlayerIdx) now
      let upd := fun p : TablePlayerState =>
        let st := p.gameStatistics
        let st := { st with actionTimes := st.actionTimes + 1, raiseTimes := st.raiseTimes + 1 }
        let st := if st.isVPIPChance then { st with isVPIP := true } else st
        let st := if st.isPFRChance then { st with isPFR := true } else st
        let st := if st.isATSChance then { st with isATS := true } else st
        { p with gameStatistics := st }
      let players1 := setPlayer t.state.playerStates playerIdx.toNat upd
      let playerState1 :=
        match players1.get? playerIdx.toNat with
        | some p => p
        | none => { playerID := playerID, seat := UnsetValue, positions := []
                    bankroll := 0, isIn := false, isParticipated := false
                    gameStatistics := NewPlayerGameStatistics }
      let players2 := refreshThreeBet players1 playerState1 playerIdx
      let upd2 := fun p : TablePlayerState =>
        let st := p.gameStatistics
        let st := if st.isCheckRaiseChance then { st with isCheckRaise := true } else st
        let st := if st.isCBetChance then { st with isCBet := true } else st
        { p with gameStatistics := st }
      ⟨{ t with state := { t.state with
            lastPlayerGameAction := some pga
            playerStates := setPlayer players2 playerIdx.toNat upd2 } },
        none, []⟩

/-- PlayerCall from part_002.  The wager is computed from the table's game
state before the driver call. -/
def PlayerCall (t : Table) (playerID : String) (g : Except Err GameState)
    (now : Int) : ActOut :=
  match resolveGameMove t playerID with
  | Except.error e => ⟨t, some e, []⟩
  | Except.ok (gamePlayerIdx, playerIdx) =>
    let wager :=
      match t.state.gameState with
      | some gs0 =>
        if gamePlayerIdx < (gs0.players.length : Int) then
          match gs0.getPlayer gamePlayerIdx with
          | some p => gs0.status.currentWager - p.wager
          | none => gs0.status.currentWager
        else 0
      | none => 0
    match g with
    | Except.error e => ⟨t, some e, []⟩
    | Except.ok gs =>
      let pga := createPlayerGameAction t playerID playerIdx WagerAction_Call wager
        (gs.getPlayer gamePlayerIdx) now
      let upd := fun p : TablePlayerState =>
        let st := p.gameStatistics
        let st := { st with actionTimes := st.actionTimes + 1, callTimes := st.callTimes + 1 }
        let st := if st.isVPIPChance then { st with isVPIP := true } else st
        { p with gameStatistics := st }
      ⟨{ t with state := { t.state with
            lastPlayerGameAction := some pga
            playerStates := setPlayer t.state.playerStates playerIdx.toNat upd } },
        none, []⟩

/-- PlayerAllin from part_002. -/
def PlayerAllin (t : Table) (playerID : String) (g : Except Err GameState)
    (now : Int) : ActOut :=
  match resolveGameMove t playerID with
  | Except.error e => ⟨t, some e, []⟩
  | Except.ok (gamePlayerIdx, playerIdx) =>
    let wager :=
      match t.state.gameState with
      | some gs0 =>
        if gamePlayerIdx < (gs0.players.length : Int) then
          match gs0.getPlayer gamePlayerIdx with
          | some p => p.stackSize
          | none => 0
        else 0
      | none => 0
    match g with
    | Except.error e => ⟨t, some e, []⟩
    | Except.ok gs =>
      let pga := createPlayerGameAction t playerID playerIdx WagerAction_AllIn wager
        (gs.getPlayer gamePlayerIdx) now
      let upd := fun p : TablePlayerState =>
        let st := p.gameStatistics
        let st := { st with actionTimes := st.actionTimes + 1 }
        let st := if gs.status.currentRaiser == gamePlayerIdx then
            let st := { st with raiseTimes := st.raiseTimes + 1 }
            let st := if st.isPFRChance then { st with isPFR := true } else st
            if st.isATSChance then { st with isATS := true } else st
          else st
        { p with gameStatistics := st }
      let players1 := setPlayer t.state.playerStates playerIdx.toNat upd
      let playerState1 :=
        match players1.get? playerIdx.toNat with
        | some p => p
        | none => { playerID := playerID, seat := UnsetValue, positions := []
                    bankroll := 0, isIn := false, isParticipated := false
                    gameStatistics := NewPlayerGameStatistics }
      let players2 :=
        if gs.status.currentRaiser == gamePlayerIdx then
          refreshThreeBet players1 playerState1 playerIdx
        else players1
      let upd2 := fun p : TablePlayerState =>
        let st := p.gameStatistics
        let st := if gs.status.currentRaiser == gamePlayerIdx then
            (if st.isCheckRaiseChance then { st with isCheckRaise := true } else st)
          else st
        let st := if st.isVPIPChance then { st with isVPIP := true } else st
        let st := if st.isCBetChance then { st with isCBet := true } else st
        { p with gameStatistics := st }
      ⟨{ t with state := { t.state with
            lastPlayerGameAction := some pga
            playerStates := setPlayer players2 playerIdx.toNat upd2 } },
        none, []⟩

/-- PlayerCheck from part_002. -/
def PlayerCheck (t : Table) (playerID : String) (g : Except Err GameState)
    (now : Int) : ActOut :=
  match resolveGameMove t playerID with
  | Except.error e => ⟨t, some e, []⟩
  | Except.ok (gamePlayerIdx, playerIdx) =>
    match g with
    | Except.error e => ⟨t, some e, []⟩
    | Except.ok gs =>
      let pga := createPlayerGameAction t playerID playerIdx WagerAction_Check 0
        (gs.getPlayer gamePlayerIdx) now
      let upd := fun p : TablePlayerState =>
        let st := p.gameStatistics
        { p with gameStatistics :=
            { st with actionTimes := st.actionTimes + 1, checkTimes := st.checkTimes + 1 } }
      ⟨{ t with state := { t.state with
            lastPlayerGameAction := some pga
            playerStates := setPlayer t.state.playerStates playerIdx.toNat upd } },
        none, []⟩

/-- PlayerFold from part_002.  On success: record and emit the action, bump
actionTimes, mark the fold and its round (read from the driver's state
after the fold), then realise Ft3B off IsFt3BChance and ALSO realise FtCB
off the same IsFt3BChance guard, exactly as the source does. -/
def PlayerFold (t : Table) (playerID : String) (g : Except Err GameState)
    (now : Int) : ActOut :=
  match resolveGameMove t playerID with
  | Except.error e => ⟨t, some e, []⟩
  | Except.ok (gamePlayerIdx, playerIdx) =>
    match g with
    | Except.error e => ⟨t, some e, []⟩
    | Except.ok gs =>
      let pga := createPlayerGameAction t playerID playerIdx WagerAction_Fold 0
        (gs.getPlayer gamePlayerIdx) now
      let upd := fun p : TablePlayerState =>
        let st := p.gameStatistics
        let st := { st with actionTimes := st.actionTimes + 1
                            isFold := true
                            foldRound := gs.status.round }
        let st := if st.isFt3BChance then { st with isFt3B := true } else st
        let st := if st.isFt3BChance then { st with isFtCB := true } else st
        { p with gameStatistics := st }
      ⟨{ t with state := { t.state with
            lastPlayerGameAction := some pga
            playerStates := setPlayer t.state.playerStates playerIdx.toNat upd } },
        none, []⟩

/-- PlayerPass from part_002. -/
def PlayerPass (t : Table) (playerID : String) (g : Except Err GameState)
    (now : Int) : ActOut :=
  match resolveGameMove t playerID with
  | Except.error e => ⟨t, some e, []⟩
  | Except.ok (gamePlayerIdx, playerIdx) =>
    match g with
    | Except.error e => ⟨t, some e, []⟩
    | Except.ok gs =>
      let pga := createPlayerGameAction t playerID playerIdx "pass" 0
        (gs.getPlayer gamePlayerIdx) now
      ⟨{ t with state := { t.state with lastPlayerGameAction := some pga } }, none, []⟩

/-- UpdateBlind from part_002: rewrites the five blind fields in place and
returns nothing; no event is emitted and updateSerial is untouched. -/
def UpdateBlind (t : Table) (level ante dealer sb bb : Int) : Table :=
  { t with state := { t.state with blindState :=
      { t.state.blindState with level := level, ante := ante, dealer := dealer
                                sb := sb, bb := bb } } }

/-- PauseTable from part_002: set status pausing; only a table-state event
(not a table-updated event) is emitted. -/
def PauseTable (t : Table) : ActOut :=
  ⟨{ t with state := { t.state with status := TableStateStatus_TablePausing } }, none, []⟩

/-- CloseTable from part_002: set status closed, release the engine (an
engine-local flag, not table state), then emitEvent. -/
def CloseTable (t : Table) : ActOut :=
  let t1 := { t with state := { t.state with status := TableStateStatus_TableClosed } }
  ⟨emitEvent t1, none, ["CloseTable"]⟩

/-- StartTableGame from part_002: a second call is a no-op; otherwise stamp
startAt, emitEvent and raise the ready-open-first-game collaborator
callback (not a table-updated event). -/
def StartTableGame (t : Table) (now : Int) : ActOut :=
  if t.state.startAt != UnsetValue then ⟨t, none, []⟩
  else
    let t1 := { t with state := { t.state with startAt := now } }
    ⟨emitEvent t1, none, ["StartTableGame"]⟩

/-- PlayerRedeemChips from part_002: add the redeemed chips to the player's
bankroll, then emitEvent and a player-state event. -/
def PlayerRedeemChips (t : Table) (playerID : String) (redeemChips : Int) : ActOut :=
  let playerIdx := t.FindPlayerIdx playerID
  if playerIdx == UnsetValue then ⟨t, some Err.tablePlayerNotFound, []⟩
  else
    let ps := setPlayer t.state.playerStates playerIdx.toNat
      (fun p => { p with bankroll := p.bankroll + redeemChips })
    let t1 := { t with state := { t.state with playerStates := ps } }
    ⟨emitEvent t1, none, ["PlayerRedeemChips"]⟩

/-- PlayerExtendActionDeadline from part_002: push currentActionEndAt by the
extension and emitEvent; the returned deadline is the new field value. -/
def PlayerExtendActionDeadline (t : Table) (duration : Int) : ActOut :=
  let t1 := { t with state := { t.state with
      currentActionEndAt := t.state.currentActionEndAt + duration } }
  ⟨emitEvent t1, none, ["PlayerExtendActionDeadline"]⟩

/-- PlayerJoin from part_002.  Order of guards follows the source: unknown
player, unset seat, already-in (silent success), then mark isIn, notify the
ready group (an engine-local barrier without table effect, elided), join in
the seat manager (failure returns the error after isIn was already set),
and finally emitEvent. -/
def PlayerJoin (sm : SMView) (t : Table) (playerID : String) : ActOut :=
  let playerIdx := t.FindPlayerIdx playerID
  if playerIdx == UnsetValue then ⟨t, some Err.tablePlayerNotFound, []⟩
  else
    match t.state.playerStates.get? playerIdx.toNat with
    | none => ⟨t, some Err.tablePlayerNotFound, []⟩
    | some p =>
      if p.seat == UnsetValue then ⟨t, some Err.tablePlayerInvalidAction, []⟩
      else if p.isIn then ⟨t, none, []⟩
      else
        let ps := setPlayer t.state.playerStates playerIdx.toNat
          (fun q => { q with isIn := true })
        let t1 := { t with state := { t.state with playerStates := ps } }
        if !sm.joinPlayersOk then ⟨t1, some (Err.other "JoinPlayers"), []⟩
        else ⟨emitEvent t1, none, ["PlayerJoin"]⟩

/-- PlayerSettlementFinish from part_002: unknown player and not-joined
player are rejected before the open-game manager is notified; the Boolean
records whether ogm.Ready was invoked (the manager itself is an external
collaborator). -/
def PlayerSettlementFinish (t : Table) (playerID : String) : ActOut × Bool :=
  let playerIdx := t.FindPlayerIdx playerID
  if playerIdx == UnsetValue then (⟨t, some Err.tablePlayerNotFound, []⟩, false)
  else
    match t.state.playerStates.get? playerIdx.toNat with
    | none => (⟨t, some Err.tablePlayerNotFound, []⟩, false)
    | some p =>
      if !p.isIn then (⟨t, some Err.tablePlayerInvalidAction, []⟩, false)
      else (⟨t, none, []⟩, true)

/-- Modelled from the spec: NewDefaultSeatMap (outside the provided
sources) maps every seat index to -1, the empty marker. -/
def NewDefaultSeatMap (tableMaxSeatCount : Int) : List (Int × Int) :=
  (List.range tableMaxSeatCount.toNat).map (fun i => ((i : Int), UnsetValue))

/-- Go map assignment on the association-list model: update the key in
place or append it. -/
def mapSet (m : List (Int × Int)) (k v : Int) : List (Int × Int) :=
  if m.any (fun kv => kv.fst == k) then
    m.map (fun kv => if kv.fst == k then (k, v) else kv)
  else m ++ [(k, v)]

/-- Folding map assignments for a list of (key, value) writes. -/
def mapSetAll (m : List (Int × Int)) : List (Int × Int) → List (Int × Int)
  | [] => m
  | (k, v) :: rest => mapSetAll (mapSet m k v) rest

/-- calcLeavePlayers from table_engine_internal.go.  The player list is
filtered, the seat map is rebuilt from the survivors, and while a hand is
running the game-player indexes are re-pointed at the survivors (dropping
leavers); the id of a current game player is looked up in the table's own
player list, where an out-of-range index would be a Go panic (unreachable:
the engine stores only valid indexes) and is modelled as the empty id. -/
def calcLeavePlayers (t : Table) (status : String) (leavePlayerIDs : List String)
    (currentPlayers : List TablePlayerState) (tableMaxSeatCount : Int) :
    List TablePlayerState × List (Int × Int) × List Int :=
  let newPlayerStates := currentPlayers.filter
    (fun p => !leavePlayerIDs.any (fun leavePlayerID => p.playerID == leavePlayerID))
  let newSeatMap := mapSetAll (NewDefaultSeatMap tableMaxSeatCount)
    ((newPlayerStates.enum).map (fun pi => (pi.snd.seat, (pi.fst : Int))))
  let newPlayerData := fun playerID =>
    (newPlayerStates.enum).find? (fun pi => pi.snd.playerID == playerID)
  let currentGamePlayerData := fun (playerIdx : Int) =>
    if 0 ≤ playerIdx then
      match t.state.playerStates.get? playerIdx.toNat with
      | some p => p.playerID
      | none => ""
    else ""
  let gameStatuses := [TableStateStatus_TableGameOpened,
    TableStateStatus_TableGamePlaying, TableStateStatus_TableGameSettled]
  let newGamePlayerIndexes :=
    if gameStatuses.any (fun s => s == status) then
      t.state.gamePlayerIndexes.filterMap (fun currentPlayerIdx =>
        match newPlayerData (currentGamePlayerData currentPlayerIdx) with
        | some pi => some ((pi.fst : Int))
        | none => none)
    else t.state.gamePlayerIndexes
  (newPlayerStates, newSeatMap, newGamePlayerIndexes)

/-- batchRemovePlayers from table_engine_internal.go: commit the three
recomputed components, then remove the seats in the seat manager, whose
error is returned after the table was already mutated. -/
def batchRemovePlayers (sm : SMView) (t : Table) (playerIDs : List String) :
    Table × Option Err :=
  let r := calcLeavePlayers t t.state.status playerIDs t.state.playerStates
    t.meta.tableMaxSeatCount
  let t1 := { t with state :=
    { t.state with playerStates := r.fst, seatMap := r.snd.fst
                   gamePlayerIndexes := r.snd.snd } }
  if !sm.removeSeatsOk then (t1, some (Err.other "RemoveSeats")) else (t1, none)

/-- PlayersLeave from part_002: batch removal, then emitEvent and a
players-leave table-state event. -/
def PlayersLeave (sm : SMView) (t : Table) (playerIDs : List String) : ActOut :=
  let r := batchRemovePlayers sm t playerIDs
  match r.snd with
  | some e => ⟨r.fst, some e, []⟩
  | none => ⟨emitEvent r.fst, none, ["PlayersLeave"]⟩

/-- JoinPlayer from table_settings.go. -/
structure JoinPlayer where
  playerID : String
  redeemChips : Int
  seat : Int
deriving Repr, DecidableEq

/-- Loop of batchAddPlayers building the new player states and seat-map
writes; each player's seat is read back from the seat manager and a failed
read aborts with the error, leaving the table untouched (the mutation is
committed afterwards).  `baseLen` is the length of the existing player list;
the Go code computes each new index as baseLen + len(newPlayers) - 1. -/
def buildNewPlayers (sm : SMView) (baseLen : Nat) :
    List JoinPlayer → List TablePlayerState → List (Int × Int) →
    Except Err (List TablePlayerState × List (Int × Int))
  | [], acc, writes => Except.ok (acc, writes)
  | jp :: rest, acc, writes =>
    match sm.getSeatID jp.playerID with
    | none => Except.error (Err.other "GetSeatID")
    | some seat =>
      let player : TablePlayerState :=
        { playerID := jp.playerID, seat := seat, positions := []
          isParticipated := false, bankroll := jp.redeemChips, isIn := false
          gameStatistics := NewPlayerGameStatistics }
      let acc1 := acc ++ [player]
      let newPlayerIdx := baseLen + acc1.length - 1
      buildNewPlayers sm baseLen rest acc1 (writes ++ [(seat, (newPlayerIdx : Int))])

/-- batchAddPlayers from table_engine_internal.go.  Seat assignment in the
seat manager happens first (explicit seats, then random seats); then the
new player states are built and committed together with the seat-map
writes.  playersAutoIn only wires the ready-group barrier and has no
synchronous table effect, so it is elided; the per-player events are
player-state events, not table-updated events. -/
def batchAddPlayers (sm : SMView) (t : Table) (players : List JoinPlayer) :
    Table × Option Err :=
  let hasExplicit := players.any (fun p => p.seat != UnsetValue)
  let hasRandom := players.any (fun p => p.seat == UnsetValue)
  if hasExplicit && !sm.assignSeatsOk then (t, some Err.tablePlayerSeatUnavailable)
  else if hasRandom && !sm.randomAssignSeatsOk then (t, some Err.tableNoEmptySeats)
  else
    match buildNewPlayers sm t.state.playerStates.length players [] [] with
    | Except.error e => (t, some e)
    | Except.ok (newPlayers, writes) =>
      ({ t with state := { t.state with
          seatMap := mapSetAll t.state.seatMap writes
          playerStates := t.state.playerStates ++ newPlayers } }, none)

/-- PlayerReserve from part_002: buy-in for a new player (bounded by the
seat count) or re-buy for an existing one, then emitEvent. -/
def PlayerReserve (sm : SMView) (t : Table) (joinPlayer : JoinPlayer) : ActOut :=
  let targetPlayerIdx := t.FindPlayerIdx joinPlayer.playerID
  if targetPlayerIdx == UnsetValue then
    if (t.state.playerStates.length : Int) == t.meta.tableMaxSeatCount then
      ⟨t, some Err.tableNoEmptySeats, []⟩
    else
      let r := batchAddPlayers sm t [joinPlayer]
      match r.snd with
      | some e => ⟨r.fst, some e, []⟩
      | none => ⟨emitEvent r.fst, none, ["PlayerReserve"]⟩
  else
    let ps := setPlayer t.state.playerStates targetPlayerIdx.toNat
      (fun p => { p with bankroll := p.bankroll + joinPlayer.redeemChips })
    let t1 := { t with state := { t.state with playerStates := ps } }
    if !(sm.updateHasChipsOk joinPlayer.playerID) then
      ⟨t1, some (Err.other "UpdatePlayerHasChips"), []⟩
    else ⟨emitEvent t1, none, ["PlayerReserve"]⟩

/-- UpdateTablePlayers from part_002: remove leavers, add joiners, then
emitEvent once. -/
def UpdateTablePlayers (sm : SMView) (t : Table) (joinPlayers : List JoinPlayer)
    (leavePlayerIDs : List String) : ActOut :=
  let afterRemove :=
    if leavePlayerIDs.length > 0 then batchRemovePlayers sm t leavePlayerIDs
    else (t, none)
  match afterRemove.snd with
  | some e => ⟨afterRemove.fst, some e, []⟩
  | none =>
    let afterAdd :=
      if joinPlayers.length > 0 then batchAddPlayers sm afterRemove.fst joinPlayers
      else (afterRemove.fst, none)
    match afterAdd.snd with
    | some e => ⟨afterAdd.fst, some e, []⟩
    | none => ⟨emitEvent afterAdd.fst, none, ["UpdateTablePlayers"]⟩

/-- Loop of refreshNextBBOrderPlayerIDs from table_engine_internal.go,
walking `fuel` seats clockwise from `i`, keeping occupants with chips. -/
def nextBBOrderLoop (tableMaxSeatCount : Int) (players : List TablePlayerState)
    (seatMap : List (Int × Int)) : Int → Nat → List String
  | _, 0 => []
  | i, Nat.succ fuel =>
    let newBBSeatID := Int.tmod i tableMaxSeatCount
    let rest := nextBBOrderLoop tableMaxSeatCount players seatMap (i + 1) fuel
    match lookupOpt seatMap newBBSeatID with
    | some playerIdx =>
      if 0 ≤ playerIdx && playerIdx < (players.length : Int) then
        match players.get? playerIdx.toNat with
        | some p => if p.bankroll > 0 then p.playerID :: rest else rest
        | none => rest
      else rest
    | none => rest

/-- refreshNextBBOrderPlayerIDs from table_engine_internal.go: seats in
clockwise order starting one past the current BB, keeping only seats whose
occupant has chips. -/
def refreshNextBBOrderPlayerIDs (currentBBSeatID tableMaxSeatCount : Int)
    (players : List TablePlayerState) (seatMap : List (Int × Int)) : List String :=
  nextBBOrderLoop tableMaxSeatCount players seatMap (currentBBSeatID + 1)
    tableMaxSeatCount.toNat

/-- ShortDeck branch loop of calcGamePlayerIndexes: walk the player ring
from the dealer's player index, keeping participants.  A negative ring
index (possible when the dealer seat is empty and the seat map holds -1)
indexes the Go slice negatively, a panic, modelled as `none`. -/
def shortDeckLoop (players : List TablePlayerState) (playerLen : Int) :
    Int → Nat → Option (List Int)
  | _, 0 => some []
  | i, Nat.succ fuel =>
    let playerIdx := Int.tmod i playerLen
    if playerIdx < 0 then none
    else
      match players.get? playerIdx.toNat with
      | none => none
      | some p =>
        match shortDeckLoop players playerLen (i + 1) fuel with
        | none => none
        | some rest => if p.isParticipated then some (playerIdx :: rest) else some rest

/-- Seat-walk loop of calcGamePlayerIndexes (Default and Omaha): walk the
seat ring clockwise from the start seat, appending participating occupants;
a seat-map entry pointing outside the player list is a Go panic, modelled
as `none` (an absent key reads as the Go zero value 0). -/
def seatWalkLoop (seatMapLen : Int) (seatMap : List (Int × Int))
    (players : List TablePlayerState) : Int → Nat → Option (List Int)
  | _, 0 => some []
  | i, Nat.succ fuel =>
    let seatID := Int.tmod i seatMapLen
    let playerIdx := lookupD seatMap seatID
    if 0 ≤ playerIdx then
      match players.get? playerIdx.toNat with
      | none => none
      | some p =>
        match seatWalkLoop seatMapLen seatMap players (i + 1) fuel with
        | none => none
        | some rest => if p.isParticipated then some (playerIdx :: rest) else some rest
    else seatWalkLoop seatMapLen seatMap players (i + 1) fuel

/-- Fake-dealer scan of calcGamePlayerIndexes: walk counter-clockwise from
startSeatID + maxSeatCount - 1 down to startSeatID and return the first
Active seat, UnsetValue when none is found. -/
def fakeDealerScan (sm : SMView) (maxSeatCount : Int) : Int → Nat → Int
  | _, 0 => UnsetValue
  | i, Nat.succ fuel =>
    let seatID := Int.tmod i maxSeatCount
    if sm.seatActive seatID then seatID else fakeDealerScan sm maxSeatCount (i - 1) fuel

/-- calcGamePlayerIndexes from table_engine_internal.go.  The ShortDeck
branch walks the player list from the dealer's player index; the Default
and Omaha branch walks the seat ring from the dealer seat, deriving a fake
dealer seat when the dealer seat holds no participant.  The local
playerPositions map of the Go code is written but never read, so it is
dropped. -/
def calcGamePlayerIndexes (sm : SMView) (rule : String)
    (maxSeatCount currentDealerSeatID currentSBSeatID currentBBSeatID : Int)
    (seatMap : List (Int × Int)) (players : List TablePlayerState) :
    Option (List Int) :=
  if rule == CompetitionRule_ShortDeck then
    let playerLen := (players.length : Int)
    let dealerPlayerIdx := lookupD seatMap currentDealerSeatID
    shortDeckLoop players playerLen dealerPlayerIdx players.length
  else
    let participated := (players.enum).filter (fun pi => pi.snd.isParticipated)
    let dealerPlayerIdx := participated.foldl
      (fun acc pi => if pi.snd.seat == currentDealerSeatID then (pi.fst : Int) else acc)
      UnsetValue
    let sbPlayerIdx := participated.foldl
      (fun acc pi => if pi.snd.seat == currentSBSeatID then (pi.fst : Int) else acc)
      UnsetValue
    if dealerPlayerIdx == UnsetValue then
      let startSeatID :=
        if sbPlayerIdx == UnsetValue then currentBBSeatID else currentSBSeatID
      let fakeDealerSeatID := fakeDealerScan sm maxSeatCount
        (startSeatID + maxSeatCount - 1) maxSeatCount.toNat
      seatWalkLoop (seatMap.length : Int) seatMap players fakeDealerSeatID seatMap.length
    else
      seatWalkLoop (seatMap.length : Int) seatMap players currentDealerSeatID seatMap.length

/-- Participation refresh of openGame step 5: every player's isParticipated
is recomputed from the seat manager; an IsPlayerActive error aborts with
the raw error (openGame then returns the untouched input table). -/
def updateParticipation (sm : SMView) :
    List TablePlayerState → Except Err (List TablePlayerState)
  | [] => Except.ok []
  | p :: rest =>
    match sm.isPlayerActive p.playerID with
    | none => Except.error (Err.other "IsPlayerActive")
    | some active =>
      match updateParticipation sm rest with
      | Except.error e => Except.error e
      | Except.ok rest1 => Except.ok ({ p with isParticipated := active } :: rest1)

/-- Result of openGame: the table to commit (or the untouched input), the
error, and the trace of mutating seat-manager calls attempted. -/
structure OpenGameResult where
  table : Table
  err : Option Err
  smTrace : List String
deriving Repr, DecidableEq

/-- openGame from table_engine_stage.go.  Order follows the source: blind
set and not breaking, clone (the serialization round-trip deep copy is the
value itself here; its marshal-error path is not modelled), status to
game_opened on the clone, seat rotation (init on the first hand), refresh
participation, recompute gamePlayerIndexes and positions, then bump
gameCount and snapshot the dealer, SB and BB seats.  Every failure returns
the untouched input table.  A `none` result models a Go panic inside the
index computation. -/
def openGame (sm : SMView) (oldTable : Table) : Option OpenGameResult :=
  if !oldTable.state.blindState.IsSet then
    some ⟨oldTable, some Err.tableOpenGameFailed, []⟩
  else if oldTable.state.blindState.IsBreaking then
    some ⟨oldTable, some Err.tableOpenGameFailedInBlindBreakingLevel, []⟩
  else
    let clone0 := { oldTable with state :=
      { oldTable.state with status := TableStateStatus_TableGameOpened } }
    let trace := if !sm.isInitPositions then ["InitPositions"] else ["RotatePositions"]
    let rotateOk := if !sm.isInitPositions then sm.initPositionsOk else sm.rotatePositionsOk
    if !rotateOk then some ⟨oldTable, some Err.tableOpenGameFailed, trace⟩
    else
      match updateParticipation sm clone0.state.playerStates with
      | Except.error e => some ⟨oldTable, some e, trace⟩
      | Except.ok players1 =>
        let clone1 := { clone0 with state := { clone0.state with playerStates := players1 } }
        match calcGamePlayerIndexes sm clone1.meta.rule clone1.meta.tableMaxSeatCount
            sm.dealerSeatID sm.sbSeatID sm.bbSeatID clone1.state.seatMap
            clone1.state.playerStates with
        | none => none
        | some gamePlayerIndexes =>
          let clone2 := { clone1 with state := { clone1.state with
              gamePlayerIndexes := gamePlayerIndexes
              playerStates := sm.updatePositions clone1.state.playerStates } }
          let clone3 := { clone2 with state := { clone2.state with
              gameCount := clone2.state.gameCount + 1
              currentDealerSeat := sm.dealerSeatID
              currentSBSeat := sm.sbSeatID
              currentBBSeat := sm.bbSeatID } }
          some ⟨clone3, none, trace⟩

/-- startGame from table_engine_stage.go, reduced to its table-state
effect: the game options and callback wiring feed the external game driver,
whose Start outcome is the oracle `gstart` (`none` is a start error).  On
success the engine's copy of the driver state, delivered through the
state-updated callback, is installed synchronously together with status
playing and the gameBlindState snapshot (whose endTime is the Go zero
value). -/
def startGame (gstart : Option GameState) (t : Table) : ActOut :=
  match gstart with
  | none => ⟨t, some (Err.other "GameStart"), []⟩
  | some gs =>
    let blind := t.state.blindState
    ⟨{ t with state := { t.state with
        status := TableStateStatus_TableGamePlaying
        gameState := some gs
        gameBlindState := some { level := blind.level, ante := blind.ante
                                 dealer := blind.dealer, sb := blind.sb
                                 bb := blind.bb, endTime := 0 } } },
      none, []⟩

/-- Statuses treated as a running game by tableGameOpen's retry loop. -/
def gameRunningStatuses : List String :=
  [TableStateStatus_TableGameOpened, TableStateStatus_TableGamePlaying,
   TableStateStatus_TableGameSettled]

/-- Result of tableGameOpen: the table afterwards, the returned error, the
table-updated events emitted, and the trace of mutating seat-manager calls
of the first openGame attempt. -/
structure GameOpenOut where
  table : Table
  err : Option Err
  events : List String
  smTrace : List String
deriving Repr, DecidableEq

/-- tableGameOpen from table_engine_stage.go.  An already-open game state
returns nil immediately.  Otherwise openGame runs; on success the clone is
committed, the tableGameOpen event emitted and the hand started.  On
OpenGameFailed the Go code retries up to ten times over thirty seconds; in
this synchronous embedding the table state cannot change between retries,
so every retry repeats the first outcome and the loop collapses to its
first iteration's running-status test: a running status returns nil, and
otherwise the error is returned after the retries are exhausted.  A
breaking-level error is swallowed; any other error is returned as is. -/
def tableGameOpen (sm : SMView) (gstart : Option GameState) (t : Table) :
    Option GameOpenOut :=
  if t.state.gameState.isSome then some ⟨t, none, [], []⟩
  else
    match openGame sm t with
    | none => none
    | some r =>
      match r.err with
      | none =>
        let t1 := emitEvent r.table
        let s := startGame gstart t1
        some ⟨s.table, s.err, "tableGameOpen" :: s.events, r.smTrace⟩
      | some Err.tableOpenGameFailed =>
        if gameRunningStatuses.any (fun st => st == t.state.status) then
          some ⟨t, none, [], r.smTrace⟩
        else some ⟨t, some Err.tableOpenGameFailed, [], r.smTrace⟩
      | some Err.tableOpenGameFailedInBlindBreakingLevel =>
        some ⟨t, none, [], r.smTrace⟩
      | some e => some ⟨t, some e, [], r.smTrace⟩

/-- Modelled from the spec: the settlement rank collaborator.  GetWinners
returns the game player indexes whose hand power ties for best among the
non-folded contributors. -/
def getWinners (players : List GamePlayerState) : List Int :=
  let contributors := players.filter (fun p => !p.fold)
  match contributors with
  | [] => []
  | c :: rest =>
    let best := rest.foldl (fun acc p => max acc p.combinationPower) c.combinationPower
    (contributors.filter (fun p => p.combinationPower == best)).map (fun p => p.idx)

/-- Result of settleGame: the settled table, the alive players returned to
continueGame, and the table-updated events emitted. -/
structure SettleOut where
  table : Table
  alivePlayers : List TablePlayerState
  events : List String
deriving Repr, DecidableEq

/-- Index mapping of one settlement result row: the Go expression
`GamePlayerIndexes[player.Idx]`, whose panics (row index or mapped player
index negative or out of range) are modelled as `none`. -/
def resultPlayerIdx (gamePlayerIndexes : List Int) (r : GameResultPlayer) : Option Nat :=
  if r.idx < 0 then none
  else
    match gamePlayerIndexes.get? r.idx.toNat with
    | none => none
    | some playerIdx => if playerIdx < 0 then none else some playerIdx.toNat

/-- Per-row player update of the settlement loop: overwrite the bankroll
with the row's Final, then refresh the showdown flags (`k` is the mapped
table player index, non-negative at every call site). -/
def settleUpd (gs : GameState) (notFoldCount : Int) (winnerPlayerIndexes : List Int)
    (k : Nat) (r : GameResultPlayer) (playerState : TablePlayerState) :
    TablePlayerState :=
  let ps1 := { playerState with bankroll := r.final }
  match gs.getPlayer r.idx with
  | some p =>
    if !p.fold && notFoldCount > 1 then
      let st := { ps1.gameStatistics with showdownWinningChance := true }
      let st := if winnerPlayerIndexes.any (fun w => w == (k : Int)) then
          { st with isShowdownWinning := true } else st
      { ps1 with gameStatistics := st }
    else
      { ps1 with gameStatistics :=
          { ps1.gameStatistics with showdownWinningChance := false } }
  | none =>
    { ps1 with gameStatistics :=
        { ps1.gameStatistics with showdownWinningChance := false } }

/-- Settlement loop of settleGame: for each result row, map the game index
through gamePlayerIndexes (a Go panic when out of range, modelled as
`none`), apply the per-row update, and collect the updated player when the
new bankroll is positive. -/
def settleLoop (gs : GameState) (notFoldCount : Int) (winnerPlayerIndexes : List Int)
    (gamePlayerIndexes : List Int) :
    List GameResultPlayer → List TablePlayerState → List TablePlayerState →
    Option (List TablePlayerState × List TablePlayerState)
  | [], players, alive => some (players, alive)
  | r :: rest, players, alive =>
    match resultPlayerIdx gamePlayerIndexes r with
    | none => none
    | some k =>
      match players.get? k with
      | none => none
      | some playerState =>
        let ps2 := settleUpd gs notFoldCount winnerPlayerIndexes k r playerState
        let players1 := players.set k ps2
        let alive1 := if ps2.bankroll > 0 then alive ++ [ps2] else alive
        settleLoop gs notFoldCount winnerPlayerIndexes gamePlayerIndexes
          rest players1 alive1

/-- settleGame from table_engine_stage.go: set status settled, count the
non-folded result players, rank the non-folded hands, settle every result
row (bankroll := Final, showdown flags, alive collection), refresh
nextBBOrderPlayerIDs from the current BB seat, and emit the settle event
and the GameSettled table-state event.  A nil game state or an out-of-range
result index is a Go panic, modelled as `none`. -/
def settleGame (sm : SMView) (t : Table) : Option SettleOut :=
  match t.state.gameState with
  | none => none
  | some gs =>
    let t0 := { t with state :=
      { t.state with status := TableStateStatus_TableGameSettled } }
    let notFoldCount := ((gs.result.players.filter (fun r =>
      match gs.getPlayer r.idx with
      | some p => !p.fold
      | none => false)).length : Int)
    let winnerGamePlayerIndexes := getWinners gs.players
    let winnerPlayerIndexes := winnerGamePlayerIndexes.filterMap (fun w =>
      let pi := t.FindPlayerIndexFromGamePlayerIndex w
      if pi == UnsetValue then none else some pi)
    match settleLoop gs notFoldCount winnerPlayerIndexes t.state.gamePlayerIndexes
        gs.result.players t0.state.playerStates [] with
    | none => none
    | some (players1, alive) =>
      let t1 := { t0 with state := { t0.state with playerStates := players1 } }
      let nextBB := refreshNextBBOrderPlayerIDs sm.bbSeatID t1.meta.tableMaxSeatCount
        t1.state.playerStates t1.state.seatMap
      let t2 := { t1 with state := { t1.state with nextBBOrderPlayerIDs := nextBB } }
      some ⟨emitEvent t2, alive, ["SettleTableGameResult"]⟩

/-- Player reset loop of continueGame: positions and statistics are reset
for every player, the seat manager's has-chips flag is refreshed and
isParticipated recomputed; a seat-manager error returns immediately with
the partially reset list, as the Go loop does. -/
def resetPlayersLoop (sm : SMView) :
    List TablePlayerState → List TablePlayerState × Option Err
  | [] => ([], none)
  | p :: rest =>
    let p1 := { p with positions := ([] : List String)
                       gameStatistics := NewPlayerGameStatistics }
    if !(sm.updateHasChipsOk p.playerID) then
      (p1 :: rest, some (Err.other "UpdatePlayerHasChips"))
    else
      match sm.isPlayerActive p.playerID with
      | none => (p1 :: rest, some (Err.other "IsPlayerActive"))
      | some active =>
        let p2 := { p1 with isParticipated := active }
        let r := resetPlayersLoop sm rest
        (p2 :: r.fst, r.snd)

/-- continueGame from table_engine_stage.go, reduced to its synchronous
state reset: status standby; gamePlayerIndexes, nextBBOrderPlayerIDs,
currentActionEndAt, gameState and lastPlayerGameAction cleared; every
player's positions and statistics reset and participation refreshed.  The
deferred continuation (CT/Cash duration expiry, pause on blind break,
auto-open of the next hand) runs on the time bank after the configured
interval and is outside this synchronous embedding; `alivePlayers` is
consumed only by that deferred handler. -/
def continueGame (sm : SMView) (t : Table)
    (alivePlayers : List TablePlayerState) : Table × Option Err :=
  let st0 := { t.state with
      status := TableStateStatus_TableGameStandby
      gamePlayerIndexes := ([] : List Int)
      nextBBOrderPlayerIDs := ([] : List String)
      currentActionEndAt := 0
      gameState := (none : Option GameState)
      lastPlayerGameAction := (none : Option TablePlayerGameAction) }
  let r := resetPlayersLoop sm st0.playerStates
  let _ := alivePlayers
  ({ t with state := { st0 with playerStates := r.fst } }, r.snd)

/-- Universe of the public, state-mutating entry points of the table engine
embedded in this development (CreateTable, which constructs the table, is
the initial state and not a transition). -/
inductive EngineOp where
  | updateBlind (level ante dealer sb bb : Int)
  | pauseTable
  | closeTable
  | startTableGame (now : Int)
  | playerReserve (joinPlayer : JoinPlayer)
  | playerJoin (playerID : String)
  | playerSettlementFinish (playerID : String)
  | playerRedeemChips (playerID : String) (chips : Int)
  | playersLeave (playerIDs : List String)
  | playerExtendActionDeadline (duration : Int)
  | updateTablePlayers (joins : List JoinPlayer) (leaves : List String)
  | playerReady (playerID : String) (g : Except Err GameState) (now : Int)
  | playerPay (playerID : String) (chips : Int) (g : Except Err GameState) (now : Int)
  | playerBet (playerID : String) (chips : Int) (g : Except Err GameState) (now : Int)
  | playerRaise (playerID : String) (chipLevel : Int) (g : Except Err GameState) (now : Int)
  | playerCall (playerID : String) (g : Except Err GameState) (now : Int)
  | playerAllin (playerID : String) (g : Except Err GameState) (now : Int)
  | playerCheck (playerID : String) (g : Except Err GameState) (now : Int)
  | playerFold (playerID : String) (g : Except Err GameState) (now : Int)
  | playerPass (playerID : String) (g : Except Err GameState) (now : Int)
  | gameOpen (gstart : Option GameState)

/-- Dispatch of an engine operation on a table; `none` models a Go panic. -/
def applyOp (sm : SMView) (op : EngineOp) (t : Table) : Option ActOut :=
  match op with
  | EngineOp.updateBlind level ante dealer sb bb =>
      some ⟨UpdateBlind t level ante dealer sb bb, none, []⟩
  | EngineOp.pauseTable => some (PauseTable t)
  | EngineOp.closeTable => some (CloseTable t)
  | EngineOp.startTableGame now => some (StartTableGame t now)
  | EngineOp.playerReserve jp => some (PlayerReserve sm t jp)
  | EngineOp.playerJoin pid => some (PlayerJoin sm t pid)
  | EngineOp.playerSettlementFinish pid => some (PlayerSettlementFinish t pid).fst
  | EngineOp.playerRedeemChips pid chips => some (PlayerRedeemChips t pid chips)
  | EngineOp.playersLeave pids => some (PlayersLeave sm t pids)
  | EngineOp.playerExtendActionDeadline d => some (PlayerExtendActionDeadline t d)
  | EngineOp.updateTablePlayers joins leaves => some (UpdateTablePlayers sm t joins leaves)
  | EngineOp.playerReady pid g now => some (PlayerReady t pid g now)
  | EngineOp.playerPay pid chips g now => some (PlayerPay t pid chips g now)
  | EngineOp.playerBet pid chips g now => some (PlayerBet t pid chips g now)
  | EngineOp.playerRaise pid chipLevel g now => some (PlayerRaise t pid chipLevel g now)
  | EngineOp.playerCall pid g now => some (PlayerCall t pid g now)
  | EngineOp.playerAllin pid g now => some (PlayerAllin t pid g now)
  | EngineOp.playerCheck pid g now => some (PlayerCheck t pid g now)
  | EngineOp.playerFold pid g now => some (PlayerFold t pid g now)
  | EngineOp.playerPass pid g now => some (PlayerPass t pid g now)
  | EngineOp.gameOpen gstart =>
      match tableGameOpen sm gstart t with
      | none => none
      | some r => some ⟨r.table, r.err, r.events⟩

/-- Frame facts shared by the public operations: gameCount is untouched,
updateSerial advances exactly by the number of table-updated emissions, and
at most one such event is emitted per call. -/
def FrameOk (t : Table) (out : ActOut) : Prop :=
  out.table.state.gameCount = t.state.gameCount ∧
  out.table.updateSerial = t.updateSerial + (out.events.length : Int) ∧
  out.events.length ≤ 1

/-- Discriminates the tableGameOpen transition inside the operation
universe; it is the only operation allowed to change gameCount. -/
def isGameOpenOp : EngineOp → Prop
  | EngineOp.gameOpen _ => True
  | _ => False

/-- Concrete seat-manager view used by the witness evaluations: positions
initialised, every call succeeding, dealer at seat 0, SB at seat 0 and BB
at seat 1 (heads-up), every seat active, position rewriting the identity. -/
def smSample : SMView :=
  { isInitPositions := true, initPositionsOk := true, rotatePositionsOk := true
    isPlayerActive := fun _ => some true
    dealerSeatID := 0, sbSeatID := 0, bbSeatID := 1
    seatActive := fun _ => true
    updatePositions := fun ps => ps
    joinPlayersOk := true
    getSeatID := fun _ => some 2
    assignSeatsOk := true, randomAssignSeatsOk := true, removeSeatsOk := true
    updateHasChipsOk := fun _ => true }

/-- Blind level 1 with SB 10 and BB 20, used by the witness tables. -/
def blindSample : TableBlindState :=
  { level := 1, ante := 0, dealer := 0, sb := 10, bb := 20, endTime := 0 }

/-- Witness player on seat 0. -/
def alice : TablePlayerState :=
  { playerID := "alice", seat := 0, positions := [Position_Dealer, Position_SB]
    bankroll := 1000, isIn := true, isParticipated := true
    gameStatistics := NewPlayerGameStatistics }

/-- Witness player on seat 1. -/
def bob : TablePlayerState :=
  { playerID := "bob", seat := 1, positions := [Position_BB]
    bankroll := 1000, isIn := true, isParticipated := true
    gameStatistics := NewPlayerGameStatistics }

/-- Witness table meta: a three-seat default-rule MTT table. -/
def metaSample : TableMeta :=
  { competitionID := "c1", rule := CompetitionRule_Default
    mode := CompetitionMode_MTT, maxDuration := 60, tableMaxSeatCount := 3
    tableMinPlayerCount := 2, minChipUnit := 10, actionTime := 10 }

/-- Witness table in standby with alice and bob seated. -/
def tSample : Table :=
  { id := "t1", meta := metaSample
    state :=
      { status := TableStateStatus_TableGameStandby
        gameState := none
        playerStates := [alice, bob]
        gamePlayerIndexes := []
        gameCount := 0
        startAt := UnsetValue
        blindState := blindSample
        currentDealerSeat := UnsetValue
        currentSBSeat := UnsetValue
        currentBBSeat := UnsetValue
        seatMap := [(0, 0), (1, 1), (2, UnsetValue)]
        nextBBOrderPlayerIDs := []
        lastPlayerGameAction := none
        currentActionEndAt := 0
        gameBlindState := none }
    updateAt := 0, updateSerial := 0 }

/-- Witness hand state: alice (game index 0) beats bob at showdown and the
result hands alice 1500 and bob 500. -/
def gsSample : GameState :=
  { gameID := "g1"
    players :=
      [ { idx := 0, fold := false, combinationPower := 100, bankroll := 1500
          initialStackSize := 1000, stackSize := 1480, pot := 40, wager := 20 }
      , { idx := 1, fold := false, combinationPower := 50, bankroll := 500
          initialStackSize := 1000, stackSize := 480, pot := 40, wager := 20 } ]
    status := { round := GameRound_Flop, currentRaiser := 0, currentWager := 20 }
    result := { players := [ { idx := 0, final := 1500 }, { idx := 1, final := 500 } ] } }

/-- Witness table during play: gsSample installed, game players 0 and 1. -/
def tPlay : Table :=
  { tSample with state := { tSample.state with
      status := TableStateStatus_TableGamePlaying
      gameState := some gsSample
      gamePlayerIndexes := [0, 1] } }

/-- Statistics carrying a fold-to-C-Bet chance without a fold-to-3-Bet
chance (a postflop state reachable when no 3-Bet happened preflop but an
opponent C-Bet the flop). -/
def ftcbOnlyStats : TablePlayerGameStatistics :=
  { NewPlayerGameStatistics with isFtCBChance := true }

/-- Statistics carrying a fold-to-3-Bet chance without a fold-to-C-Bet
chance. -/
def ft3bOnlyStats : TablePlayerGameStatistics :=
  { NewPlayerGameStatistics with isFt3BChance := true }

/-- Playing table whose acting player alice has IsFtCBChance and no
IsFt3BChance: the C1 failing input. -/
def tC1 : Table :=
  { tPlay with state := { tPlay.state with
      playerStates := [{ alice with gameStatistics := ftcbOnlyStats }, bob] } }

/-- Playing table whose acting player alice has IsFt3BChance and no
IsFtCBChance: the converse C1 exhibit. -/
def tC1b : Table :=
  { tPlay with state := { tPlay.state with
      playerStates := [{ alice with gameStatistics := ft3bOnlyStats }, bob] } }

/-- Breaking-level table whose blind state is otherwise set: level -1 with
SB 10 and BB 20. -/
def tBreak : Table :=
  { tSample with state := { tSample.state with
      blindState := { blindSample with level := -1 } } }

/-- Breaking-level table whose SB is zero, so IsSet fails before the
breaking test: the C2 counterexample input. -/
def tC2 : Table :=
  { tSample with state := { tSample.state with
      blindState := { blindSample with level := -1, sb := 0 } } }

/-- Successful openGame outcome on the witness table, used to discharge the
openGame hypotheses concretely. -/
def openSampleResult : OpenGameResult :=
  (openGame smSample tSample).getD ⟨tSample, none, []⟩

/-- Successful settleGame outcome on the playing witness table. -/
def settleSampleResult : SettleOut :=
  (settleGame smSample tPlay).getD ⟨tPlay, [], []⟩

theorem frame_PlayerReady (t : Table) (pid : String) (g : Except Err GameState)
    (now : Int) : FrameOk t (PlayerReady t pid g now) := by
  unfold FrameOk PlayerReady
  cases hr : resolveGameMove t pid with
  | error e => simp
  | ok p =>
    obtain ⟨gi, pi⟩ := p
    cases g <;> simp

theorem frame_PlayerPay (t : Table) (pid : String) (chips : Int)
    (g : Except Err GameState) (now : Int) : FrameOk t (PlayerPay t pid chips g now) := by
  unfold FrameOk PlayerPay
  cases hr : resolveGameMove t pid with
  | error e => simp
  | ok p =>
    obtain ⟨gi, pi⟩ := p
    cases g <;> simp

theorem frame_PlayerBet (t : Table) (pid : String) (chips : Int)
    (g : Except Err GameState) (now : Int) : FrameOk t (PlayerBet t pid chips g now) := by
  unfold FrameOk PlayerBet
  cases hr : resolveGameMove t pid with
  | error e => simp
  | ok p =>
    obtain ⟨gi, pi⟩ := p
    cases g <;> simp

theorem frame_PlayerRaise (t : Table) (pid : String) (chipLevel : Int)
    (g : Except Err GameState) (now : Int) : FrameOk t (PlayerRaise t pid chipLevel g now) := by
  unfold FrameOk PlayerRaise
  cases hr : resolveGameMove t pid with
  | error e => simp
  | ok p =>
    obtain ⟨gi, pi⟩ := p
    cases g <;> simp

theorem frame_PlayerCall (t : Table) (pid : String) (g : Except Err GameState)
    (now : Int) : FrameOk t (PlayerCall t pid g now) := by
  unfold FrameOk PlayerCall
  cases hr : resolveGameMove t pid with
  | error e => simp
  | ok p =>
    obtain ⟨gi, pi⟩ := p
    cases g <;> simp

theorem frame_PlayerAllin (t : Table) (pid : String) (g : Except Err GameState)
    (now : Int) : FrameOk t (PlayerAllin t pid g now) := by
  unfold FrameOk PlayerAllin
  cases hr : resolveGameMove t pid with
  | error e => simp
  | ok p =>
    obtain ⟨gi, pi⟩ := p
    cases g <;> simp

theorem frame_PlayerCheck (t : Table) (pid : String) (g : Except Err GameState)
    (now : Int) : FrameOk t (PlayerCheck t pid g now) := by
  unfold FrameOk PlayerCheck
  cases hr : resolveGameMove t pid with
  | error e => simp
  | ok p =>
    obtain ⟨gi, pi⟩ := p
    cases g <;> simp

theorem frame_PlayerFold (t : Table) (pid : String) (g : Except Err GameState)
    (now : Int) : FrameOk t (PlayerFold t pid g now) := by
  unfold FrameOk PlayerFold
  cases hr : resolveGameMove t pid with
  | error e => simp
  | ok p =>
    obtain ⟨gi, pi⟩ := p
    cases g <;> simp

theorem frame_PlayerPass (t : Table) (pid : String) (g : Except Err GameState)
    (now : Int) : FrameOk t (PlayerPass t pid g now) := by
  unfold FrameOk PlayerPass
  cases hr : resolveGameMove t pid with
  | error e => simp
  | ok p =>
    obtain ⟨gi, pi⟩ := p
    cases g <;> simp

theorem frame_PauseTable (t : Table) : FrameOk t (PauseTable t) := by
  unfold FrameOk PauseTable
  simp

theorem frame_CloseTable (t : Table) : FrameOk t (CloseTable t) := by
  unfold FrameOk CloseTable emitEvent
  simp

theorem frame_StartTableGame (t : Table) (now : Int) :
    FrameOk t (StartTableGame t now) := by
  unfold FrameOk StartTableGame emitEvent
  split <;> simp

theorem frame_PlayerRedeemChips (t : Table) (pid : String) (chips : Int) :
    FrameOk t (PlayerRedeemChips t pid chips) := by
  unfold FrameOk PlayerRedeemChips emitEvent
  dsimp only
  split <;> simp

theorem frame_PlayerExtendActionDeadline (t : Table) (d : Int) :
    FrameOk t (PlayerExtendActionDeadline t d) := by
  unfold FrameOk PlayerExtendActionDeadline emitEvent
  simp

theorem frame_PlayerJoin (sm : SMView) (t : Table) (pid : String) :
    FrameOk t (PlayerJoin sm t pid) := by
  unfold FrameOk PlayerJoin emitEvent
  dsimp only
  split
  · simp
  · split
    · simp
    · split
      · simp
      · split
        · simp
        · split <;> simp

theorem frame_PlayerSettlementFinish (t : Table) (pid : String) :
    FrameOk t (PlayerSettlementFinish t pid).fst := by
  unfold FrameOk PlayerSettlementFinish
  dsimp only
  split
  · simp
  · split
    · simp
    · split <;> simp

theorem gameCount_batchRemovePlayers (sm : SMView) (t : Table) (pids : List String) :
    (batchRemovePlayers sm t pids).fst.state.gameCount = t.state.gameCount ∧
    (batchRemovePlayers sm t pids).fst.updateSerial = t.updateSerial := by
  unfold batchRemovePlayers
  dsimp only
  split <;> simp

theorem frame_PlayersLeave (sm : SMView) (t : Table) (pids : List String) :
    FrameOk t (PlayersLeave sm t pids) := by
  have h := gameCount_batchRemovePlayers sm t pids
  unfold FrameOk PlayersLeave emitEvent
  dsimp only
  split
  · exact ⟨h.1, by simp [h.2], by simp⟩
  · exact ⟨h.1, by simp [h.2], by simp⟩

theorem gameCount_batchAddPlayers (sm : SMView) (t : Table) (players : List JoinPlayer) :
    (batchAddPlayers sm t players).fst.state.gameCount = t.state.gameCount ∧
    (batchAddPlayers sm t players).fst.updateSerial = t.updateSerial := by
  unfold batchAddPlayers
  dsimp only
  split
  · simp
  · split
    · simp
    · split <;> simp

theorem frame_PlayerReserve (sm : SMView) (t : Table) (jp : JoinPlayer) :
    FrameOk t (PlayerReserve sm t jp) := by
  have h := gameCount_batchAddPlayers sm t [jp]
  unfold FrameOk PlayerReserve emitEvent
  dsimp only
  split
  · split
    · simp
    · split
      · exact ⟨h.1, by simp [h.2], by simp⟩
      · exact ⟨h.1, by simp [h.2], by simp⟩
  · split <;> simp

theorem frame_UpdateTablePlayers (sm : SMView) (t : Table) (joins : List JoinPlayer)
    (leaves : List String) : FrameOk t (UpdateTablePlayers sm t joins leaves) := by
  unfold FrameOk UpdateTablePlayers emitEvent
  dsimp only
  have h1 :
      (if leaves.length > 0 then batchRemovePlayers sm t leaves else (t, none)).fst.state.gameCount
        = t.state.gameCount ∧
      (if leaves.length > 0 then batchRemovePlayers sm t leaves else (t, none)).fst.updateSerial
        = t.updateSerial := by
    split
    · exact gameCount_batchRemovePlayers sm t leaves
    · exact ⟨rfl, rfl⟩
  set tr := if leaves.length > 0 then batchRemovePlayers sm t leaves else (t, none) with htr
  have h2 :
      (if joins.length > 0 then batchAddPlayers sm tr.fst joins else (tr.fst, none)).fst.state.gameCount
        = tr.fst.state.gameCount ∧
      (if joins.length > 0 then batchAddPlayers sm tr.fst joins else (tr.fst, none)).fst.updateSerial
        = tr.fst.updateSerial := by
    split
    · exact gameCount_batchAddPlayers sm tr.fst joins
    · exact ⟨rfl, rfl⟩
  set ta := if joins.length > 0 then batchAddPlayers sm tr.fst joins else (tr.fst, none) with hta
  split
  · exact ⟨h1.1, by simp [h1.2], by simp⟩
  · split
    · exact ⟨h2.1.trans h1.1, by simp [h2.2, h1.2], by simp⟩
    · exact ⟨h2.1.trans h1.1, by simp [h2.2, h1.2], by simp⟩

theorem openGame_cases (sm : SMView) (t : Table) :
    openGame sm t = none ∨
    (∃ e trace, openGame sm t = some ⟨t, some e, trace⟩) ∨
    (∃ r, openGame sm t = some r ∧ r.err = none ∧
       r.table.state.gameCount = t.state.gameCount + 1 ∧
       r.table.updateSerial = t.updateSerial ∧
       r.table.state.status = TableStateStatus_TableGameOpened) := by
  unfold openGame
  dsimp only
  repeat' split
  all_goals first
    | (left; rfl)
    | (right; left; exact ⟨_, _, rfl⟩)
    | (right; right; exact ⟨_, rfl, rfl, by simp, by simp, by simp⟩)

theorem openGame_breaking (sm : SMView) (t : Table)
    (h1 : t.state.blindState.IsSet = true)
    (h2 : t.state.blindState.IsBreaking = true) :
    openGame sm t = some ⟨t, some Err.tableOpenGameFailedInBlindBreakingLevel, []⟩ := by
  unfold openGame
  simp [h1, h2]

theorem startGame_frame (gstart : Option GameState) (t : Table) :
    (startGame gstart t).table.state.gameCount = t.state.gameCount ∧
    (startGame gstart t).table.updateSerial = t.updateSerial ∧
    (startGame gstart t).events = [] := by
  unfold startGame
  cases gstart <;> simp

theorem startGame_success (gs : GameState) (t : Table) :
    (startGame (some gs) t).table.state.status = TableStateStatus_TableGamePlaying ∧
    (startGame (some gs) t).table.state.gameState = some gs ∧
    (startGame (some gs) t).err = none := by
  unfold startGame
  simp

theorem frame_tableGameOpen (sm : SMView) (gstart : Option GameState) (t : Table)
    (r : GameOpenOut) (h : tableGameOpen sm gstart t = some r) :
    (r.table.state.gameCount = t.state.gameCount ∨
     r.table.state.gameCount = t.state.gameCount + 1) ∧
    r.table.updateSerial = t.updateSerial + (r.events.length : Int) ∧
    r.events.length ≤ 1 := by
  unfold tableGameOpen at h
  split at h
  · obtain rfl := Option.some.inj h
    exact ⟨Or.inl rfl, by simp, by simp⟩
  · split at h
    · exact absurd h (by simp)
    · rename_i og heq
      split at h
      · rename_i herr
        rcases openGame_cases sm t with hnone | ⟨e, trace, heq2⟩ |
            ⟨og2, heq2, herr2, hcount, hserial, _⟩
        · rw [heq] at hnone
          exact absurd hnone (by simp)
        · rw [heq] at heq2
          obtain hog := Option.some.inj heq2
          subst hog
          exact absurd herr (by simp)
        · rw [heq] at heq2
          obtain hog := Option.some.inj heq2
          subst hog
          obtain rfl := Option.some.inj h
          cases gstart with
          | none =>
            refine ⟨Or.inr ?_, ?_, by simp [startGame]⟩
            · simpa [startGame, emitEvent] using hcount
            · simp [startGame, emitEvent, hserial]
          | some gs =>
            refine ⟨Or.inr ?_, ?_, by simp [startGame]⟩
            · simpa [startGame, emitEvent] using hcount
            · simp [startGame, emitEvent, hserial]
      · split at h
        · obtain rfl := Option.some.inj h
          exact ⟨Or.inl rfl, by simp, by simp⟩
        · obtain rfl := Option.some.inj h
          exact ⟨Or.inl rfl, by simp, by simp⟩
      · obtain rfl := Option.some.inj h
        exact ⟨Or.inl rfl, by simp, by simp⟩
      · obtain rfl := Option.some.inj h
        exact ⟨Or.inl rfl, by simp, by simp⟩

theorem settleGame_state (sm : SMView) (t : Table) (s : SettleOut)
    (h : settleGame sm t = some s) :
    s.table.state.gameCount = t.state.gameCount ∧
    s.table.state.status = TableStateStatus_TableGameSettled ∧
    s.table.state.gameState = t.state.gameState ∧
    s.table.updateSerial = t.updateSerial + 1 := by
  unfold settleGame at h
  split at h
  · exact absurd h (by simp)
  · dsimp only at h
    split at h
    · exact absurd h (by simp)
    · obtain rfl := Option.some.inj h
      refine ⟨by simp [emitEvent], by simp [emitEvent], ?_, by simp [emitEvent]⟩
      simp [emitEvent]

theorem continueGame_state (sm : SMView) (t : Table)
    (alive : List TablePlayerState) :
    (continueGame sm t alive).fst.state.status = TableStateStatus_TableGameStandby ∧
    (continueGame sm t alive).fst.state.gameState = none ∧
    (continueGame sm t alive).fst.state.gameCount = t.state.gameCount ∧
    (continueGame sm t alive).fst.updateSerial = t.updateSerial := by
  unfold continueGame
  dsimp only
  simp

theorem applyOp_frame (sm : SMView) (op : EngineOp) (t : Table) (out : ActOut)
    (h : applyOp sm op t = some out) (hno : ¬ isGameOpenOp op) : FrameOk t out := by
  cases op with
  | updateBlind level ante dealer sb bb =>
      simp only [applyOp] at h
      obtain rfl := Option.some.inj h
      exact ⟨rfl, by simp [UpdateBlind], by simp⟩
  | pauseTable =>
      simp only [applyOp] at h
      obtain rfl := Option.some.inj h
      exact frame_PauseTable t
  | closeTable =>
      simp only [applyOp] at h
      obtain rfl := Option.some.inj h
      exact frame_CloseTable t
  | startTableGame now =>
      simp only [applyOp] at h
      obtain rfl := Option.some.inj h
      exact frame_StartTableGame t now
  | playerReserve jp =>
      simp only [applyOp] at h
      obtain rfl := Option.some.inj h
      exact frame_PlayerReserve sm t jp
  | playerJoin pid =>
      simp only [applyOp] at h
      obtain rfl := Option.some.inj h
      exact frame_PlayerJoin sm t pid
  | playerSettlementFinish pid =>
      simp only [applyOp] at h
      obtain rfl := Option.some.inj h
      exact frame_PlayerSettlementFinish t pid
  | playerRedeemChips pid chips =>
      simp only [applyOp] at h
      obtain rfl := Option.some.inj h
      exact frame_PlayerRedeemChips t pid chips
  | playersLeave pids =>
      simp only [applyOp] at h
      obtain rfl := Option.some.inj h
      exact frame_PlayersLeave sm t pids
  | playerExtendActionDeadline d =>
      simp only [applyOp] at h
      obtain rfl := Option.some.inj h
      exact frame_PlayerExtendActionDeadline t d
  | updateTablePlayers joins leaves =>
      simp only [applyOp] at h
      obtain rfl := Option.some.inj h
      exact frame_UpdateTablePlayers sm t joins leaves
  | playerReady pid g now =>
      simp only [applyOp] at h
      obtain rfl := Option.some.inj h
      exact frame_PlayerReady t pid g now
  | playerPay pid chips g now =>
      simp only [applyOp] at h
      obtain rfl := Option.some.inj h
      exact frame_PlayerPay t pid chips g now
  | playerBet pid chips g now =>
      simp only [applyOp] at h
      obtain rfl := Option.some.inj h
      exact frame_PlayerBet t pid chips g now
  | playerRaise pid chipLevel g now =>
      simp only [applyOp] at h
      obtain rfl := Option.some.inj h
      exact frame_PlayerRaise t pid chipLevel g now
  | playerCall pid g now =>
      simp only [applyOp] at h
      obtain rfl := Option.some.inj h
      exact frame_PlayerCall t pid g now
  | playerAllin pid g now =>
      simp only [applyOp] at h
      obtain rfl := Option.some.inj h
      exact frame_PlayerAllin t pid g now
  | playerCheck pid g now =>
      simp only [applyOp] at h
      obtain rfl := Option.some.inj h
      exact frame_PlayerCheck t pid g now
  | playerFold pid g now =>
      simp only [applyOp] at h
      obtain rfl := Option.some.inj h
      exact frame_PlayerFold t pid g now
  | playerPass pid g now =>
      simp only [applyOp] at h
      obtain rfl := Option.some.inj h
      exact frame_PlayerPass t pid g now
  | gameOpen gstart =>
      exact absurd trivial hno

/-- C4: gameCount never decreases across the modelled engine operations;
every successful openGame returns a table whose gameCount is exactly one
greater than the input's; every public operation other than the
tableGameOpen transition leaves gameCount unchanged, and settlement and
continuation leave it unchanged as well. -/
theorem C4_gameCount_monotone :
    (∀ (sm : SMView) (op : EngineOp) (t : Table) (out : ActOut),
       applyOp sm op t = some out →
         t.state.gameCount ≤ out.table.state.gameCount ∧
         (¬ isGameOpenOp op → out.table.state.gameCount = t.state.gameCount)) ∧
    (∀ (sm : SMView) (t : Table) (r : OpenGameResult),
       openGame sm t = some r → r.err = none →
         r.table.state.gameCount = t.state.gameCount + 1) ∧
    (∀ (sm : SMView) (t : Table) (s : SettleOut),
       settleGame sm t = some s → s.table.state.gameCount = t.state.gameCount) ∧
    (∀ (sm : SMView) (t : Table) (alive : List TablePlayerState),
       (continueGame sm t alive).fst.state.gameCount = t.state.gameCount) := by
  refine ⟨?_, ?_, ?_, ?_⟩
  · intro sm op t out h
    cases op with
    | gameOpen gstart =>
        simp only [applyOp] at h
        split at h
        · exact absurd h (by simp)
        · rename_i r heq
          obtain rfl := Option.some.inj h
          have hf := frame_tableGameOpen sm gstart t r heq
          rcases hf.1 with hsame | hinc
          · exact ⟨le_of_eq hsame.symm, fun _ => hsame⟩
          · exact ⟨by dsimp only; omega, fun hno => absurd trivial hno⟩
    | updateBlind level ante dealer sb bb =>
        have hf := applyOp_frame sm (EngineOp.updateBlind level ante dealer sb bb) t out h
          (by simp [isGameOpenOp])
        exact ⟨le_of_eq hf.1.symm, fun _ => hf.1⟩
    | pauseTable =>
        have hf := applyOp_frame sm EngineOp.pauseTable t out h (by simp [isGameOpenOp])
        exact ⟨le_of_eq hf.1.symm, fun _ => hf.1⟩
    | closeTable =>
        have hf := applyOp_frame sm EngineOp.closeTable t out h (by simp [isGameOpenOp])
        exact ⟨le_of_eq hf.1.symm, fun _ => hf.1⟩
    | startTableGame now =>
        have hf := applyOp_frame sm (EngineOp.startTableGame now) t out h
          (by simp [isGameOpenOp])
        exact ⟨le_of_eq hf.1.symm, fun _ => hf.1⟩
    | playerReserve jp =>
        have hf := applyOp_frame sm (EngineOp.playerReserve jp) t out h
          (by simp [isGameOpenOp])
        exact ⟨le_of_eq hf.1.symm, fun _ => hf.1⟩
    | playerJoin pid =>
        have hf := applyOp_frame sm (EngineOp.playerJoin pid) t out h
          (by simp [isGameOpenOp])
        exact ⟨le_of_eq hf.1.symm, fun _ => hf.1⟩
    | playerSettlementFinish pid =>
        have hf := applyOp_frame sm (EngineOp.playerSettlementFinish pid) t out h
          (by simp [isGameOpenOp])
        exact ⟨le_of_eq hf.1.symm, fun _ => hf.1⟩
    | playerRedeemChips pid chips =>
        have hf := applyOp_frame sm (EngineOp.playerRedeemChips pid chips) t out h
          (by simp [isGameOpenOp])
        exact ⟨le_of_eq hf.1.symm, fun _ => hf.1⟩
    | playersLeave pids =>
        have hf := applyOp_frame sm (EngineOp.playersLeave pids) t out h
          (by simp [isGameOpenOp])
        exact ⟨le_of_eq hf.1.symm, fun _ => hf.1⟩
    | playerExtendActionDeadline d =>
        have hf := applyOp_frame sm (EngineOp.playerExtendActionDeadline d) t out h
          (by simp [isGameOpenOp])
        exact ⟨le_of_eq hf.1.symm, fun _ => hf.1⟩
    | updateTablePlayers joins leaves =>
        have hf := applyOp_frame sm (EngineOp.updateTablePlayers joins leaves) t out h
          (by simp [isGameOpenOp])
        exact ⟨le_of_eq hf.1.symm, fun _ => hf.1⟩
    | playerReady pid g now =>
        have hf := applyOp_frame sm (EngineOp.playerReady pid g now) t out h
          (by simp [isGameOpenOp])
        exact ⟨le_of_eq hf.1.symm, fun _ => hf.1⟩
    | playerPay pid chips g now =>
        have hf := applyOp_frame sm (EngineOp.playerPay pid chips g now) t out h
          (by simp [isGameOpenOp])
        exact ⟨le_of_eq hf.1.symm, fun _ => hf.1⟩
    | playerBet pid chips g now =>
        have hf := applyOp_frame sm (EngineOp.playerBet pid chips g now) t out h
          (by simp [isGameOpenOp])
        exact ⟨le_of_eq hf.1.symm, fun _ => hf.1⟩
    | playerRaise pid chipLevel g now =>
        have hf := applyOp_frame sm (EngineOp.playerRaise pid chipLevel g now) t out h
          (by simp [isGameOpenOp])
        exact ⟨le_of_eq hf.1.symm, fun _ => hf.1⟩
    | playerCall pid g now =>
        have hf := applyOp_frame sm (EngineOp.playerCall pid g now) t out h
          (by simp [isGameOpenOp])
        exact ⟨le_of_eq hf.1.symm, fun _ => hf.1⟩
    | playerAllin pid g now =>
        have hf := applyOp_frame sm (EngineOp.playerAllin pid g now) t out h
          (by simp [isGameOpenOp])
        exact ⟨le_of_eq hf.1.symm, fun _ => hf.1⟩
    | playerCheck pid g now =>
        have hf := applyOp_frame sm (EngineOp.playerCheck pid g now) t out h
          (by simp [isGameOpenOp])
        exact ⟨le_of_eq hf.1.symm, fun _ => hf.1⟩
    | playerFold pid g now =>
        have hf := applyOp_frame sm (EngineOp.playerFold pid g now) t out h
          (by simp [isGameOpenOp])
        exact ⟨le_of_eq hf.1.symm, fun _ => hf.1⟩
    | playerPass pid g now =>
        have hf := applyOp_frame sm (EngineOp.playerPass pid g now) t out h
          (by simp [isGameOpenOp])
        exact ⟨le_of_eq hf.1.symm, fun _ => hf.1⟩
  · intro sm t r h herr
    rcases openGame_cases sm t with hnone | ⟨e, trace, heq⟩ |
        ⟨og, heq, herr2, hcount, _, _⟩
    · rw [hnone] at h
      exact absurd h (by simp)
    · rw [heq] at h
      obtain hog := Option.some.inj h
      rw [← hog] at herr
      exact absurd herr (by simp)
    · rw [heq] at h
      obtain hog := Option.some.inj h
      rw [← hog]
      exact hcount
  · intro sm t s h
    exact (settleGame_state sm t s h).1
  · intro sm t alive
    exact (continueGame_state sm t alive).2.2.1

/-- Witness for C4 at concrete inputs: UpdateBlind on the sample table
keeps gameCount, and the sample openGame succeeds with gameCount going
from 0 to exactly 1. -/
theorem C4_gameCount_monotone_witness :
    tSample.state.gameCount ≤
      (UpdateBlind tSample 2 0 0 30 60).state.gameCount ∧
    openSampleResult.table.state.gameCount = tSample.state.gameCount + 1 := by
  constructor
  · exact (C4_gameCount_monotone.1 smSample (EngineOp.updateBlind 2 0 0 30 60) tSample
      ⟨UpdateBlind tSample 2 0 0 30 60, none, []⟩ rfl).1
  · exact C4_gameCount_monotone.2.1 smSample tSample openSampleResult
      (by decide) (by decide)

/-- C5 counterexample: UpdateBlind is a state-mutating public entry point
(the blind state changes) after which updateSerial is unchanged, so
updateSerial is not strictly greater after every successful public call. -/
theorem C5_updateBlind_counterexample :
    (UpdateBlind tSample 2 5 0 30 60).updateSerial = tSample.updateSerial ∧
    (UpdateBlind tSample 2 5 0 30 60).state.blindState ≠ tSample.state.blindState := by
  exact ⟨rfl, by decide⟩

/-- C5 amended: every modelled public entry point emits at most one
table-updated event per atomic call and advances updateSerial exactly once
per emission, so updateSerial never decreases; calls that emit no
table-updated event — UpdateBlind among them, which silently rewrites the
blind state — leave updateSerial unchanged. -/
theorem C5_updateSerial :
    (∀ (sm : SMView) (op : EngineOp) (t : Table) (out : ActOut),
       applyOp sm op t = some out →
         t.updateSerial ≤ out.table.updateSerial ∧
         out.table.updateSerial = t.updateSerial + (out.events.length : Int) ∧
         out.events.length ≤ 1) ∧
    (∀ (sm : SMView) (t : Table) (level ante dealer sb bb : Int),
       applyOp sm (EngineOp.updateBlind level ante dealer sb bb) t =
         some ⟨UpdateBlind t level ante dealer sb bb, none, []⟩ ∧
       (UpdateBlind t level ante dealer sb bb).updateSerial = t.updateSerial) := by
  constructor
  · intro sm op t out h
    by_cases hop : isGameOpenOp op
    · cases op with
      | gameOpen gstart =>
          simp only [applyOp] at h
          split at h
          · exact absurd h (by simp)
          · rename_i r heq
            obtain rfl := Option.some.inj h
            have hf := frame_tableGameOpen sm gstart t r heq
            obtain ⟨h1, h2, h3⟩ := hf
            refine ⟨?_, h2, h3⟩
            dsimp only
            omega
      | updateBlind level ante dealer sb bb => exact absurd hop (by simp [isGameOpenOp])
      | pauseTable => exact absurd hop (by simp [isGameOpenOp])
      | closeTable => exact absurd hop (by simp [isGameOpenOp])
      | startTableGame now => exact absurd hop (by simp [isGameOpenOp])
      | playerReserve jp => exact absurd hop (by simp [isGameOpenOp])
      | playerJoin pid => exact absurd hop (by simp [isGameOpenOp])
      | playerSettlementFinish pid => exact absurd hop (by simp [isGameOpenOp])
      | playerRedeemChips pid chips => exact absurd hop (by simp [isGameOpenOp])
      | playersLeave pids => exact absurd hop (by simp [isGameOpenOp])
      | playerExtendActionDeadline d => exact absurd hop (by simp [isGameOpenOp])
      | updateTablePlayers joins leaves => exact absurd hop (by simp [isGameOpenOp])
      | playerReady pid g now => exact absurd hop (by simp [isGameOpenOp])
      | playerPay pid chips g now => exact absurd hop (by simp [isGameOpenOp])
      | playerBet pid chips g now => exact absurd hop (by simp [isGameOpenOp])
      | playerRaise pid chipLevel g now => exact absurd hop (by simp [isGameOpenOp])
      | playerCall pid g now => exact absurd hop (by simp [isGameOpenOp])
      | playerAllin pid g now => exact absurd hop (by simp [isGameOpenOp])
      | playerCheck pid g now => exact absurd hop (by simp [isGameOpenOp])
      | playerFold pid g now => exact absurd hop (by simp [isGameOpenOp])
      | playerPass pid g now => exact absurd hop (by simp [isGameOpenOp])
    · obtain ⟨h1, h2, h3⟩ := applyOp_frame sm op t out h hop
      exact ⟨by omega, h2, h3⟩
  · intro sm t level ante dealer sb bb
    exact ⟨rfl, rfl⟩

/-- Witness for C5 at concrete inputs: PlayerExtendActionDeadline on the
sample table emits one table-updated event and advances updateSerial by
exactly one. -/
theorem C5_updateSerial_witness :
    tSample.updateSerial ≤
      (PlayerExtendActionDeadline tSample 30).table.updateSerial ∧
    (PlayerExtendActionDeadline tSample 30).table.updateSerial =
      tSample.updateSerial +
        ((PlayerExtendActionDeadline tSample 30).events.length : Int) := by
  have h := C5_updateSerial.1 smSample (EngineOp.playerExtendActionDeadline 30) tSample
    (PlayerExtendActionDeadline tSample 30) rfl
  exact ⟨h.1, h.2.1⟩

theorem resolveGameMove_not_playing (t : Table) (pid : String)
    (h : t.state.status ≠ TableStateStatus_TableGamePlaying) :
    resolveGameMove t pid = Except.error Err.tablePlayerInvalidGameAction := by
  simp [resolveGameMove, validateGameMove, h]

theorem resolveGameMove_unknown (t : Table) (pid : String)
    (hs : t.state.status = TableStateStatus_TableGamePlaying)
    (hu : t.FindGamePlayerIdx pid = UnsetValue) :
    resolveGameMove t pid = Except.error Err.tablePlayerNotFound := by
  simp [resolveGameMove, validateGameMove, hs, hu]

theorem PlayerReady_err (t : Table) (pid : String) (g : Except Err GameState)
    (now : Int) (e : Err) (h : resolveGameMove t pid = Except.error e) :
    PlayerReady t pid g now = ⟨t, some e, []⟩ := by
  unfold PlayerReady
  rw [h]

theorem PlayerPay_err (t : Table) (pid : String) (chips : Int)
    (g : Except Err GameState) (now : Int) (e : Err)
    (h : resolveGameMove t pid = Except.error e) :
    PlayerPay t pid chips g now = ⟨t, some e, []⟩ := by
  unfold PlayerPay
  rw [h]

theorem PlayerBet_err (t : Table) (pid : String) (chips : Int)
    (g : Except Err GameState) (now : Int) (e : Err)
    (h : resolveGameMove t pid = Except.error e) :
    PlayerBet t pid chips g now = ⟨t, some e, []⟩ := by
  unfold PlayerBet
  rw [h]

theorem PlayerRaise_err (t : Table) (pid : String) (chipLevel : Int)
    (g : Except Err GameState) (now : Int) (e : Err)
    (h : resolveGameMove t pid = Except.error e) :
    PlayerRaise t pid chipLevel g now = ⟨t, some e, []⟩ := by
  unfold PlayerRaise
  rw [h]

theorem PlayerCall_err (t : Table) (pid : String) (g : Except Err GameState)
    (now : Int) (e : Err) (h : resolveGameMove t pid = Except.error e) :
    PlayerCall t pid g now = ⟨t, some e, []⟩ := by
  unfold PlayerCall
  rw [h]

theorem PlayerAllin_err (t : Table) (pid : String) (g : Except Err GameState)
    (now : Int) (e : Err) (h : resolveGameMove t pid = Except.error e) :
    PlayerAllin t pid g now = ⟨t, some e, []⟩ := by
  unfold PlayerAllin
  rw [h]

theorem PlayerCheck_err (t : Table) (pid : String) (g : Except Err GameState)
    (now : Int) (e : Err) (h : resolveGameMove t pid = Except.error e) :
    PlayerCheck t pid g now = ⟨t, some e, []⟩ := by
  unfold PlayerCheck
  rw [h]

theorem PlayerFold_err (t : Table) (pid : String) (g : Except Err GameState)
    (now : Int) (e : Err) (h : resolveGameMove t pid = Except.error e) :
    PlayerFold t pid g now = ⟨t, some e, []⟩ := by
  unfold PlayerFold
  rw [h]

theorem PlayerPass_err (t : Table) (pid : String) (g : Except Err GameState)
    (now : Int) (e : Err) (h : resolveGameMove t pid = Except.error e) :
    PlayerPass t pid g now = ⟨t, some e, []⟩ := by
  unfold PlayerPass
  rw [h]

/-- C3 counterexample: an unknown playerID on a table that is not Playing
fails with InvalidGameAction, not PlayerNotFound — the status test of
validateGameMove precedes the index test, so an unknown playerID does not
yield PlayerNotFound regardless of the table status. -/
theorem C3_unknown_player_counterexample :
    tSample.FindGamePlayerIdx "ghost" = UnsetValue ∧
    (PlayerFold tSample "ghost" (Except.error Err.gameInvalidAction) 0).err =
      some Err.tablePlayerInvalidGameAction ∧
    some Err.tablePlayerInvalidGameAction ≠ some Err.tablePlayerNotFound := by
  exact ⟨by decide, by decide, by decide⟩

/-- C3 amended: for every Player* game-action entry point, a table status
other than Playing fails with InvalidGameAction (whether or not the
playerID is known), and when the status is Playing an unknown playerID
(no game-player index) fails with PlayerNotFound. -/
theorem C3_action_validation :
    ∀ (t : Table) (pid : String) (chips chipLevel : Int)
      (g : Except Err GameState) (now : Int),
      (t.state.status ≠ TableStateStatus_TableGamePlaying →
        (PlayerReady t pid g now).err = some Err.tablePlayerInvalidGameAction ∧
        (PlayerPay t pid chips g now).err = some Err.tablePlayerInvalidGameAction ∧
        (PlayerBet t pid chips g now).err = some Err.tablePlayerInvalidGameAction ∧
        (PlayerRaise t pid chipLevel g now).err = some Err.tablePlayerInvalidGameAction ∧
        (PlayerCall t pid g now).err = some Err.tablePlayerInvalidGameAction ∧
        (PlayerAllin t pid g now).err = some Err.tablePlayerInvalidGameAction ∧
        (PlayerCheck t pid g now).err = some Err.tablePlayerInvalidGameAction ∧
        (PlayerFold t pid g now).err = some Err.tablePlayerInvalidGameAction ∧
        (PlayerPass t pid g now).err = some Err.tablePlayerInvalidGameAction) ∧
      (t.state.status = TableStateStatus_TableGamePlaying →
       t.FindGamePlayerIdx pid = UnsetValue →
        (PlayerReady t pid g now).err = some Err.tablePlayerNotFound ∧
        (PlayerPay t pid chips g now).err = some Err.tablePlayerNotFound ∧
        (PlayerBet t pid chips g now).err = some Err.tablePlayerNotFound ∧
        (PlayerRaise t pid chipLevel g now).err = some Err.tablePlayerNotFound ∧
        (PlayerCall t pid g now).err = some Err.tablePlayerNotFound ∧
        (PlayerAllin t pid g now).err = some Err.tablePlayerNotFound ∧
        (PlayerCheck t pid g now).err = some Err.tablePlayerNotFound ∧
        (PlayerFold t pid g now).err = some Err.tablePlayerNotFound ∧
        (PlayerPass t pid g now).err = some Err.tablePlayerNotFound) := by
  intro t pid chips chipLevel g now
  constructor
  · intro h
    have hr := resolveGameMove_not_playing t pid h
    exact ⟨by rw [PlayerReady_err t pid g now _ hr],
      by rw [PlayerPay_err t pid chips g now _ hr],
      by rw [PlayerBet_err t pid chips g now _ hr],
      by rw [PlayerRaise_err t pid chipLevel g now _ hr],
      by rw [PlayerCall_err t pid g now _ hr],
      by rw [PlayerAllin_err t pid g now _ hr],
      by rw [PlayerCheck_err t pid g now _ hr],
      by rw [PlayerFold_err t pid g now _ hr],
      by rw [PlayerPass_err t pid g now _ hr]⟩
  · intro hs hu
    have hr := resolveGameMove_unknown t pid hs hu
    exact ⟨by rw [PlayerReady_err t pid g now _ hr],
      by rw [PlayerPay_err t pid chips g now _ hr],
      by rw [PlayerBet_err t pid chips g now _ hr],
      by rw [PlayerRaise_err t pid chipLevel g now _ hr],
      by rw [PlayerCall_err t pid g now _ hr],
      by rw [PlayerAllin_err t pid g now _ hr],
      by rw [PlayerCheck_err t pid g now _ hr],
      by rw [PlayerFold_err t pid g now _ hr],
      by rw [PlayerPass_err t pid g now _ hr]⟩

/-- Witness for C3 at concrete inputs: on the standby sample table an
unknown player gets InvalidGameAction, and on the playing sample table an
unknown player gets PlayerNotFound. -/
theorem C3_action_validation_witness :
    (PlayerCheck tSample "ghost" (Except.error Err.gameInvalidAction) 0).err =
      some Err.tablePlayerInvalidGameAction ∧
    (PlayerCheck tPlay "ghost" (Except.error Err.gameInvalidAction) 0).err =
      some Err.tablePlayerNotFound := by
  have h1 := C3_action_validation tSample "ghost" 0 0 (Except.error Err.gameInvalidAction) 0
  have h2 := C3_action_validation tPlay "ghost" 0 0 (Except.error Err.gameInvalidAction) 0
  exact ⟨(h1.1 (by decide)).2.2.2.2.2.2.1,
    (h2.2 (by decide) (by decide)).2.2.2.2.2.2.1⟩

/-- C2 counterexample: with blind level -1 but SB = 0, the IsSet test of
openGame fails before the breaking test, openGame returns OpenGameFailed,
and tableGameOpen returns that error after its retries — so at the breaking
level, as stated, tableGameOpen does not always return nil. -/
theorem C2_blind_break_counterexample :
    tC2.state.blindState.level = -1 ∧
    tableGameOpen smSample none tC2 =
      some ⟨tC2, some Err.tableOpenGameFailed, [], []⟩ := by
  exact ⟨by decide, by decide⟩

/-- C2 amended: when the blind level is -1 and the blind state is otherwise
set (SB > 0 and BB > 0), tableGameOpen returns without error, leaves the
table unchanged, emits no event and issues no seat-manager rotation;
internally openGame returns the untouched input table together with the
OpenGameFailedInBlindBreakingLevel error, which the caller swallows. -/
theorem C2_blind_break :
    ∀ (sm : SMView) (gstart : Option GameState) (t : Table),
      t.state.blindState.level = -1 →
      t.state.blindState.sb > 0 →
      t.state.blindState.bb > 0 →
      tableGameOpen sm gstart t = some ⟨t, none, [], []⟩ ∧
      openGame sm t =
        some ⟨t, some Err.tableOpenGameFailedInBlindBreakingLevel, []⟩ := by
  intro sm gstart t hl hsb hbb
  have hset : t.state.blindState.IsSet = true := by
    simp [TableBlindState.IsSet, hl, hsb, hbb]
  have hbreak : t.state.blindState.IsBreaking = true := by
    simp [TableBlindState.IsBreaking, hl]
  have hopen := openGame_breaking sm t hset hbreak
  refine ⟨?_, hopen⟩
  unfold tableGameOpen
  split
  · rfl
  · rw [hopen]

/-- Witness for C2 at a concrete input: the breaking-level sample table
with SB 10 and BB 20. -/
theorem C2_blind_break_witness :
    tableGameOpen smSample none tBreak = some ⟨tBreak, none, [], []⟩ ∧
    openGame smSample tBreak =
      some ⟨tBreak, some Err.tableOpenGameFailedInBlindBreakingLevel, []⟩ := by
  exact C2_blind_break smSample none tBreak (by decide) (by decide) (by decide)

/-- C10: calling tableGameOpen while a game state already exists returns
nil immediately with the table unchanged, no event emitted, no
seat-manager rotation attempted and gameCount untouched, so a hand can
never be double-opened. -/
theorem C10_tableGameOpen_idempotent :
    ∀ (sm : SMView) (gstart : Option GameState) (t : Table),
      t.state.gameState.isSome = true →
      tableGameOpen sm gstart t = some ⟨t, none, [], []⟩ := by
  intro sm gstart t h
  unfold tableGameOpen
  simp [h]

/-- Witness for C10 at a concrete input: the playing sample table, whose
game state exists. -/
theorem C10_tableGameOpen_idempotent_witness :
    tableGameOpen smSample none tPlay = some ⟨tPlay, none, [], []⟩ := by
  exact C10_tableGameOpen_idempotent smSample none tPlay (by decide)

theorem filter_clearmap_zero (players : List TablePlayerState) :
    ((players.map (fun p =>
        { p with gameStatistics := { p.gameStatistics with is3B := false } })).filter
      (fun p => p.gameStatistics.is3B)).length = 0 := by
  induction players with
  | nil => simp
  | cons p rest ih => simpa [List.filter] using ih

theorem clearThreeBetIfAny_count (players : List TablePlayerState) :
    ((clearThreeBetIfAny players).filter
      (fun p => p.gameStatistics.is3B)).length = 0 := by
  unfold clearThreeBetIfAny
  split
  · exact filter_clearmap_zero players
  · rename_i h
    simp only [List.any_eq_true, not_exists, not_and] at h
    simp only [List.length_eq_zero, List.filter_eq_nil]
    intro p hp
    simp [h p hp]

theorem clearThreeBetIfAny_get (players : List TablePlayerState) (j : Nat) :
    (clearThreeBetIfAny players).get? j = players.get? j ∨
    (clearThreeBetIfAny players).get? j = (players.get? j).map (fun p =>
      { p with gameStatistics := { p.gameStatistics with is3B := false } }) := by
  unfold clearThreeBetIfAny
  split
  · right
    exact List.get?_map _ _ _
  · left
    rfl

theorem clearThreeBetIfAny_is3B (players : List TablePlayerState) (j : Nat)
    (p : TablePlayerState) (h : (clearThreeBetIfAny players).get? j = some p)
    (hfull : ((clearThreeBetIfAny players).filter
      (fun q => q.gameStatistics.is3B)).length = 0) :
    p.gameStatistics.is3B = false := by
  by_contra hb
  have hmem : p ∈ clearThreeBetIfAny players := List.get?_mem h
  have : p ∈ (clearThreeBetIfAny players).filter (fun q => q.gameStatistics.is3B) := by
    refine List.mem_filter.mpr ⟨hmem, ?_⟩
    simpa using hb
  rw [List.length_eq_zero] at hfull
  rw [hfull] at this
  exact absurd this (List.not_mem_nil p)

theorem setThreeBettor_get (playerIdx : Int) (players : List TablePlayerState) :
    ∀ (i : Int) (j : Nat),
    (setThreeBettor playerIdx i players).get? j =
      (players.get? j).map (fun p =>
        { p with gameStatistics :=
            { p.gameStatistics with is3B := ((i + (j : Int)) == playerIdx) } }) := by
  induction players with
  | nil => intro i j; simp [setThreeBettor]
  | cons p rest ih =>
    intro i j
    cases j with
    | zero => simp [setThreeBettor]
    | succ j' =>
      have hj : i + ((j' : Int) + 1) = (i + 1) + (j' : Int) := by ring
      simp only [setThreeBettor, List.get?_cons_succ, ih (i + 1) j']
      congr 1
      push_cast
      rw [hj]

theorem setThreeBettor_count_zero (playerIdx : Int) (players : List TablePlayerState) :
    ∀ (i : Int), playerIdx < i →
    ((setThreeBettor playerIdx i players).filter
      (fun p => p.gameStatistics.is3B)).length = 0 := by
  induction players with
  | nil => intro i _; simp [setThreeBettor]
  | cons p rest ih =>
    intro i h
    have hbit : (i == playerIdx) = false := by
      simp only [beq_eq_false_iff_ne, ne_eq]
      omega
    simp [setThreeBettor, List.filter, hbit, ih (i + 1) (by omega)]

theorem setThreeBettor_count (playerIdx : Int) (players : List TablePlayerState) :
    ∀ (i : Int),
    ((setThreeBettor playerIdx i players).filter
      (fun p => p.gameStatistics.is3B)).length ≤ 1 := by
  induction players with
  | nil => intro i; simp [setThreeBettor]
  | cons p rest ih =>
    intro i
    by_cases hbit : (i == playerIdx) = true
    · have heq : i = playerIdx := by simpa using hbit
      have hzero := setThreeBettor_count_zero playerIdx rest (i + 1) (by omega)
      simp [setThreeBettor, List.filter, hbit, hzero]
    · have hbit2 : (i == playerIdx) = false := by
        simpa using hbit
      simpa [setThreeBettor, List.filter, hbit2] using ih (i + 1)

theorem clearThreeBetIfAny_length (players : List TablePlayerState) :
    (clearThreeBetIfAny players).length = players.length := by
  unfold clearThreeBetIfAny
  split <;> simp

theorem clearThreeBetIfAny_get_erase (players : List TablePlayerState) (j : Nat) :
    ((clearThreeBetIfAny players).get? j).map eraseIs3B =
      (players.get? j).map eraseIs3B := by
  rcases clearThreeBetIfAny_get players j with h | h
  · rw [h]
  · rw [h]
    cases players.get? j <;> rfl

/-- C8: after refreshThreeBet at most one player carries Is3B; when the
raiser had the 3-Bet chance the raiser is the unique 3-Bettor (every other
player's Is3B reads false afterwards, including any previously set flag);
and the routine rewrites nothing but the Is3B flag of each player. -/
theorem C8_refreshThreeBet :
    ∀ (players : List TablePlayerState) (ps : TablePlayerState) (playerIdx : Int),
      (((refreshThreeBet players ps playerIdx).filter
          (fun p => p.gameStatistics.is3B)).length ≤ 1) ∧
      (ps.gameStatistics.is3BChance = true →
        (∀ j : Nat, (j : Int) = playerIdx →
          ((refreshThreeBet players ps playerIdx).get? j).map
              (fun p => p.gameStatistics.is3B) =
            (players.get? j).map (fun _ => true)) ∧
        (∀ j : Nat, (j : Int) ≠ playerIdx →
          ((refreshThreeBet players ps playerIdx).get? j).map
              (fun p => p.gameStatistics.is3B) =
            (players.get? j).map (fun _ => false))) ∧
      (∀ j : Nat, ((refreshThreeBet players ps playerIdx).get? j).map eraseIs3B =
          (players.get? j).map eraseIs3B) := by
  intro players ps playerIdx
  refine ⟨?_, ?_, ?_⟩
  · unfold refreshThreeBet
    dsimp only
    split
    · exact setThreeBettor_count playerIdx (clearThreeBetIfAny players) 0
    · rw [clearThreeBetIfAny_count players]
      omega
  · intro hchance
    have hlen := clearThreeBetIfAny_length players
    constructor
    · intro j hj
      unfold refreshThreeBet
      dsimp only
      rw [if_pos hchance]
      rw [setThreeBettor_get playerIdx (clearThreeBetIfAny players) 0 j]
      have hbit : ((0 + (j : Int)) == playerIdx) = true := by
        simp [hj]
      rw [hbit]
      rcases clearThreeBetIfAny_get players j with h | h <;> rw [h] <;>
        cases players.get? j <;> simp
    · intro j hj
      unfold refreshThreeBet
      dsimp only
      rw [if_pos hchance]
      rw [setThreeBettor_get playerIdx (clearThreeBetIfAny players) 0 j]
      have hbit : ((0 + (j : Int)) == playerIdx) = false := by
        simpa using hj
      rw [hbit]
      rcases clearThreeBetIfAny_get players j with h | h <;> rw [h] <;>
        cases players.get? j <;> simp
  · intro j
    unfold refreshThreeBet
    dsimp only
    split
    · rw [setThreeBettor_get playerIdx (clearThreeBetIfAny players) 0 j]
      have := clearThreeBetIfAny_get_erase players j
      rcases clearThreeBetIfAny_get players j with h | h <;> rw [h] <;>
        cases players.get? j <;> rfl
    · exact clearThreeBetIfAny_get_erase players j

/-- Witness for C8 at a concrete input: bob previously held Is3B, alice
raises with the 3-Bet chance; afterwards alice is the unique 3-Bettor and
bob's flag is cleared. -/
theorem C8_refreshThreeBet_witness :
    (((refreshThreeBet
        [{ alice with gameStatistics :=
            { NewPlayerGameStatistics with is3BChance := true } },
         { bob with gameStatistics := { NewPlayerGameStatistics with is3B := true } }]
        { alice with gameStatistics :=
            { NewPlayerGameStatistics with is3BChance := true } } 0).filter
        (fun p => p.gameStatistics.is3B)).length ≤ 1) ∧
    ((refreshThreeBet
        [{ alice with gameStatistics :=
            { NewPlayerGameStatistics with is3BChance := true } },
         { bob with gameStatistics := { NewPlayerGameStatistics with is3B := true } }]
        { alice with gameStatistics :=
            { NewPlayerGameStatistics with is3BChance := true } } 0).get? 1).map
        (fun p => p.gameStatistics.is3B) = some false := by
  have h := C8_refreshThreeBet
    [{ alice with gameStatistics := { NewPlayerGameStatistics with is3BChance := true } },
     { bob with gameStatistics := { NewPlayerGameStatistics with is3B := true } }]
    { alice with gameStatistics := { NewPlayerGameStatistics with is3BChance := true } } 0
  refine ⟨h.1, ?_⟩
  have h2 := (h.2.1 (by decide)).2 1 (by decide)
  rw [h2]
  decide

/-- C6 counterexample: settleGame on the playing sample table produces a
reachable settled state — observable at the GameSettled emission — whose
status is not Playing while gameState is still non-nil, refuting the
biconditional status = Playing ⇔ gameState ≠ nil. -/
theorem C6_settled_counterexample :
    settleGame smSample tPlay = some settleSampleResult ∧
    settleSampleResult.table.state.status ≠ TableStateStatus_TableGamePlaying ∧
    settleSampleResult.table.state.gameState.isSome = true := by
  exact ⟨by decide, by decide, by decide⟩

/-- C6 amended: a successful startGame sets status Playing together with a
non-nil game state; settleGame sets status Settled and keeps the game state
untouched (still non-nil) until continueGame clears it; continueGame always
yields status Standby with gameState nil.  So gameState ≠ nil holds exactly
in the Playing and Settled statuses of the open, settle, continue cycle,
not in Playing alone. -/
theorem C6_status_gameState :
    (∀ (gs : GameState) (t : Table),
       (startGame (some gs) t).table.state.status = TableStateStatus_TableGamePlaying ∧
       (startGame (some gs) t).table.state.gameState = some gs) ∧
    (∀ (sm : SMView) (t : Table) (s : SettleOut), settleGame sm t = some s →
       s.table.state.status = TableStateStatus_TableGameSettled ∧
       s.table.state.gameState = t.state.gameState) ∧
    (∀ (sm : SMView) (t : Table) (alive : List TablePlayerState),
       (continueGame sm t alive).fst.state.status = TableStateStatus_TableGameStandby ∧
       (continueGame sm t alive).fst.state.gameState = none) := by
  refine ⟨?_, ?_, ?_⟩
  · intro gs t
    have h := startGame_success gs t
    exact ⟨h.1, h.2.1⟩
  · intro sm t s h
    have h2 := settleGame_state sm t s h
    exact ⟨h2.2.1, h2.2.2.1⟩
  · intro sm t alive
    have h := continueGame_state sm t alive
    exact ⟨h.1, h.2.1⟩

/-- Witness for C6 at concrete inputs: starting the sample hand reaches
Playing with the state installed, and settling the playing sample table
reaches Settled. -/
theorem C6_status_gameState_witness :
    (startGame (some gsSample) tSample).table.state.status =
      TableStateStatus_TableGamePlaying ∧
    settleSampleResult.table.state.status = TableStateStatus_TableGameSettled := by
  refine ⟨(C6_status_gameState.1 gsSample tSample).1, ?_⟩
  exact (C6_status_gameState.2.1 smSample tPlay settleSampleResult (by decide)).1

/-- C1: PlayerFold realises IsFtCB off the IsFt3BChance guard instead of
IsFtCBChance.  On the failing input alice folds holding IsFtCBChance and no
IsFt3BChance: the fold succeeds and IsFtCB stays false, although the claim
(and the spec's FtCB rule) requires it to become true.  Conversely, with
IsFt3BChance and no IsFtCBChance the fold sets IsFtCB true. -/
theorem C1_playerFold_ftcb_realisation :
    ((tC1.state.playerStates.get? 0).map
        (fun p => p.gameStatistics.isFtCBChance)) = some true ∧
    (PlayerFold tC1 "alice" (Except.ok gsSample) 42).err = none ∧
    (((PlayerFold tC1 "alice" (Except.ok gsSample) 42).table.state.playerStates.get? 0).map
        (fun p => p.gameStatistics.isFtCB)) = some false ∧
    ((tC1b.state.playerStates.get? 0).map
        (fun p => p.gameStatistics.isFtCBChance)) = some false ∧
    (PlayerFold tC1b "alice" (Except.ok gsSample) 42).err = none ∧
    (((PlayerFold tC1b "alice" (Except.ok gsSample) 42).table.state.playerStates.get? 0).map
        (fun p => p.gameStatistics.isFtCB)) = some true := by
  exact ⟨by decide, by decide, by decide, by decide, by decide, by decide⟩

/-- C9: PlayerJoin for a player who has already joined (isIn with a real
seat, as every joined player has) returns without error and leaves the
table unchanged; PlayerSettlementFinish for a playerID absent from the
player list leaves the table unchanged and never reaches the open-game
manager (it returns PlayerNotFound). -/
theorem C9_idempotent_joins :
    (∀ (sm : SMView) (t : Table) (pid : String) (i : Nat) (p : TablePlayerState),
       t.state.playerStates.findIdx? (fun q => q.playerID == pid) = some i →
       t.state.playerStates.get? i = some p →
       p.seat ≠ UnsetValue →
       p.isIn = true →
       PlayerJoin sm t pid = ⟨t, none, []⟩) ∧
    (∀ (t : Table) (pid : String),
       t.state.playerStates.findIdx? (fun q => q.playerID == pid) = none →
       PlayerSettlementFinish t pid = (⟨t, some Err.tablePlayerNotFound, []⟩, false)) := by
  constructor
  · intro sm t pid i p hfind hget hseat hin
    unfold PlayerJoin Table.FindPlayerIdx
    rw [hfind]
    dsimp only
    have hcond : (((i : Nat) : Int) == UnsetValue) = false := by
      simp only [beq_eq_false_iff_ne, ne_eq, UnsetValue]
      omega
    rw [hcond]
    simp only [Bool.false_eq_true, if_false, Int.toNat_natCast]
    rw [hget]
    dsimp only
    have hseatb : (p.seat == UnsetValue) = false := by
      simpa using hseat
    rw [hseatb]
    simp [hin]
  · intro t pid hfind
    unfold PlayerSettlementFinish Table.FindPlayerIdx
    rw [hfind]
    rfl

/-- Witness for C9 at concrete inputs: alice has already joined the sample
table; "ghost" is unknown to it. -/
theorem C9_idempotent_joins_witness :
    PlayerJoin smSample tSample "alice" = ⟨tSample, none, []⟩ ∧
    PlayerSettlementFinish tSample "ghost" =
      (⟨tSample, some Err.tablePlayerNotFound, []⟩, false) := by
  exact ⟨C9_idempotent_joins.1 smSample tSample "alice" 0 alice
      (by decide) (by decide) (by decide) (by decide),
    C9_idempotent_joins.2 tSample "ghost" (by decide)⟩

theorem settleUpd_bankroll (gs : GameState) (nf : Int) (win : List Int) (k : Nat)
    (r : GameResultPlayer) (p : TablePlayerState) :
    (settleUpd gs nf win k r p).bankroll = r.final := by
  unfold settleUpd
  dsimp only
  cases gs.getPlayer r.idx with
  | none => rfl
  | some q =>
    dsimp only
    split
    · split <;> rfl
    · rfl

theorem settleLoop_frame (gs : GameState) (nf : Int) (win : List Int)
    (gpi : List Int) :
    ∀ (rows : List GameResultPlayer) (players alive players2 alive2 :
        List TablePlayerState),
    settleLoop gs nf win gpi rows players alive = some (players2, alive2) →
    ∀ k, (∀ r ∈ rows, resultPlayerIdx gpi r ≠ some k) →
      players2.get? k = players.get? k := by
  intro rows
  induction rows with
  | nil =>
    intro players alive players2 alive2 h k _
    obtain ⟨h1, _⟩ := Prod.mk.injEq .. ▸ Option.some.inj h
    rw [← h1]
  | cons r rest ih =>
    intro players alive players2 alive2 h k hk
    unfold settleLoop at h
    cases hrp : resultPlayerIdx gpi r with
    | none => rw [hrp] at h; exact absurd h (by simp)
    | some k0 =>
      rw [hrp] at h
      dsimp only at h
      cases hg : players.get? k0 with
      | none => rw [hg] at h; exact absurd h (by simp)
      | some ps =>
        rw [hg] at h
        dsimp only at h
        have h2 := ih _ _ _ _ h k (fun r2 hr2 => hk r2 (List.mem_cons_of_mem r hr2))
        rw [h2]
        have hne : k0 ≠ k := by
          intro he
          exact hk r (List.mem_cons_self r rest) (he ▸ hrp)
        exact List.get?_set_ne _ players hne

theorem settleLoop_update (gs : GameState) (nf : Int) (win : List Int)
    (gpi : List Int) :
    ∀ (rows : List GameResultPlayer) (players alive players2 alive2 :
        List TablePlayerState),
    settleLoop gs nf win gpi rows players alive = some (players2, alive2) →
    (rows.map (resultPlayerIdx gpi)).Nodup →
    ∀ r ∈ rows, ∀ k, resultPlayerIdx gpi r = some k →
      ∃ p, players.get? k = some p ∧
        players2.get? k = some (settleUpd gs nf win k r p) := by
  intro rows
  induction rows with
  | nil =>
    intro players alive players2 alive2 _ _ r hr
    exact absurd hr (List.not_mem_nil r)
  | cons r0 rest ih =>
    intro players alive players2 alive2 h hnd r hr k hk
    unfold settleLoop at h
    cases hrp : resultPlayerIdx gpi r0 with
    | none => rw [hrp] at h; exact absurd h (by simp)
    | some k0 =>
      rw [hrp] at h
      dsimp only at h
      cases hg : players.get? k0 with
      | none => rw [hg] at h; exact absurd h (by simp)
      | some ps0 =>
        rw [hg] at h
        dsimp only at h
        have hnotin : resultPlayerIdx gpi r0 ∉ rest.map (resultPlayerIdx gpi) :=
          (List.nodup_cons.mp (by simpa using hnd)).1
        rcases List.mem_cons.mp hr with rfl | hr2
        · have hkk : k = k0 := by
            rw [hrp] at hk
            exact (Option.some.inj hk).symm
          subst hkk
          refine ⟨ps0, hg, ?_⟩
          have hfr := settleLoop_frame gs nf win gpi rest _ _ _ _ h k (fun r2 hr2 hbad => by
            refine hnotin ?_
            have hm := List.mem_map_of_mem (resultPlayerIdx gpi) hr2
            rw [hbad] at hm
            rw [hrp]
            exact hm)
          rw [hfr]
          have hlt : k < players.length := (List.get?_eq_some.mp hg).1
          rw [List.get?_set_eq_of_lt _ (by simpa using hlt)]
        · have hknd : (rest.map (resultPlayerIdx gpi)).Nodup :=
            (List.nodup_cons.mp (by simpa using hnd)).2
          obtain ⟨p, hp1, hp2⟩ := ih _ _ _ _ h hknd r hr2 k hk
          refine ⟨p, ?_, hp2⟩
          have hne : k0 ≠ k := by
            intro he
            subst he
            exact hnotin (by
              rw [hrp, ← hk]
              exact List.mem_map_of_mem (resultPlayerIdx gpi) hr2)
          rw [← hp1]
          exact (List.get?_set_ne _ players hne).symm

theorem settleLoop_alive (gs : GameState) (nf : Int) (win : List Int)
    (gpi : List Int) :
    ∀ (rows : List GameResultPlayer) (players alive players2 alive2 :
        List TablePlayerState),
    settleLoop gs nf win gpi rows players alive = some (players2, alive2) →
    (rows.map (resultPlayerIdx gpi)).Nodup →
    alive2 = alive ++ rows.filterMap (fun r =>
      match resultPlayerIdx gpi r with
      | some k =>
        match players2.get? k with
        | some p => if r.final > 0 then some p else none
        | none => none
      | none => none) := by
  intro rows
  induction rows with
  | nil =>
    intro players alive players2 alive2 h _
    obtain ⟨_, h2⟩ := Prod.mk.injEq .. ▸ Option.some.inj h
    simp [← h2]
  | cons r0 rest ih =>
    intro players alive players2 alive2 h hnd
    unfold settleLoop at h
    cases hrp : resultPlayerIdx gpi r0 with
    | none => rw [hrp] at h; exact absurd h (by simp)
    | some k0 =>
      rw [hrp] at h
      dsimp only at h
      cases hg : players.get? k0 with
      | none => rw [hg] at h; exact absurd h (by simp)
      | some ps0 =>
        rw [hg] at h
        dsimp only at h
        have hnotin : resultPlayerIdx gpi r0 ∉ rest.map (resultPlayerIdx gpi) :=
          (List.nodup_cons.mp (by simpa using hnd)).1
        have hknd : (rest.map (resultPlayerIdx gpi)).Nodup :=
          (List.nodup_cons.mp (by simpa using hnd)).2
        have hihh := ih _ _ _ _ h hknd
        have hfr := settleLoop_frame gs nf win gpi rest _ _ _ _ h k0 (fun r2 hr2 hbad => by
          refine hnotin ?_
          have hm := List.mem_map_of_mem (resultPlayerIdx gpi) hr2
          rw [hbad] at hm
          rw [hrp]
          exact hm)
        have hlt : k0 < players.length := (List.get?_eq_some.mp hg).1
        have hgot : players2.get? k0 =
            some (settleUpd gs nf win k0 r0 ps0) := by
          rw [hfr]
          rw [List.get?_set_eq_of_lt _ (by simpa using hlt)]
        have hbk := settleUpd_bankroll gs nf win k0 r0 ps0
        rw [List.filterMap_cons]
        rw [hrp]
        dsimp only
        rw [hgot]
        dsimp only
        by_cases hfin : r0.final > 0
        · have hcond : (settleUpd gs nf win k0 r0 ps0).bankroll > 0 := by
            rw [hbk]; exact hfin
          rw [if_pos hcond] at hihh
          simp only [if_pos hfin]
          rw [hihh]
          simp
        · have hcond : ¬((settleUpd gs nf win k0 r0 ps0).bankroll > 0) := by
            rw [hbk]; exact hfin
          rw [if_neg hcond] at hihh
          simp only [if_neg hfin]
          exact hihh

/-- C7: settleGame overwrites each result player's bankroll with that
player's Final amount, and the returned alivePlayers list is exactly the
settled player states of the result rows whose new bankroll is strictly
positive, in result order.  Stated under the premise that the result rows
map to pairwise-distinct table players, which the engine's
gamePlayerIndexes construction guarantees. -/
theorem C7_settle_bankroll_alive :
    ∀ (sm : SMView) (t : Table) (gs : GameState) (s : SettleOut),
      t.state.gameState = some gs →
      settleGame sm t = some s →
      (gs.result.players.map (resultPlayerIdx t.state.gamePlayerIndexes)).Nodup →
      (∀ r ∈ gs.result.players, ∀ k,
         resultPlayerIdx t.state.gamePlayerIndexes r = some k →
         (s.table.state.playerStates.get? k).map (fun p => p.bankroll) =
           some r.final) ∧
      s.alivePlayers = gs.result.players.filterMap (fun r =>
        match resultPlayerIdx t.state.gamePlayerIndexes r with
        | some k =>
          match s.table.state.playerStates.get? k with
          | some p => if r.final > 0 then some p else none
          | none => none
        | none => none) := by
  intro sm t gs s hgs h hnd
  unfold settleGame at h
  rw [hgs] at h
  dsimp only at h
  split at h
  · exact absurd h (by simp)
  · rename_i players1 alive heq
    obtain rfl := Option.some.inj h
    constructor
    · intro r hr k hk
      obtain ⟨p, _, hp2⟩ := settleLoop_update gs _ _ t.state.gamePlayerIndexes
        gs.result.players _ _ _ _ heq hnd r hr k hk
      simp only [emitEvent]
      rw [hp2]
      simp [settleUpd_bankroll]
    · have hall := settleLoop_alive gs _ _ t.state.gamePlayerIndexes
        gs.result.players _ _ _ _ heq hnd
      simpa [emitEvent] using hall

/-- Witness for C7 at concrete inputs: settling the playing sample table
writes alice's Final 1500 into her bankroll, and the alive list is the
positive-final result rows' settled states. -/
theorem C7_settle_bankroll_alive_witness :
    (settleSampleResult.table.state.playerStates.get? 0).map
        (fun p => p.bankroll) = some 1500 ∧
    settleSampleResult.alivePlayers =
      gsSample.result.players.filterMap (fun r =>
        match resultPlayerIdx tPlay.state.gamePlayerIndexes r with
        | some k =>
          match settleSampleResult.table.state.playerStates.get? k with
          | some p => if r.final > 0 then some p else none
          | none => none
        | none => none) := by
  have h := C7_settle_bankroll_alive smSample tPlay gsSample settleSampleResult
    (by decide) (by decide) (by decide)
  refine ⟨?_, h.2⟩
  exact h.1 ⟨0, 1500⟩ (by decide) 0 (by decide)

end Pokertable
